import Mathlib

/-!
Shallow embedding, in Lean 4, of the retrieval-aware synthesis pipeline of
the Safety-assistant repository: the document chunking stage
(document_processor.py), the question domain classifier
(domain_classifier.py), the multi-document synthesis agent
(synthesis_agent.py) and the citation extractor (source_extractor.py).

Python strings are modelled as Lean `String` (lists of characters);
machine floats that only ever face threshold comparisons (similarity
scores, readability ratios) are modelled as exact rationals, with the
ratio comparisons written as cross-multiplied natural-number
inequalities.  Regular-expression passes of the source are modelled as
explicit character-list scanners with the same matching semantics.
The two network LLM providers are modelled as an environment supplying
one abstract outcome per attempted call.
-/

set_option maxRecDepth 10000
set_option maxHeartbeats 4000000

namespace SafetyAssistant

/-- The whitespace class of Python (`str.isspace` on the characters the
regex class `\s` covers): space, tab, newline, carriage return, vertical
tab and form feed. -/
def pyIsSpace (c : Char) : Bool :=
  c = ' ' || c = '\t' || c = '\n' || c = '\r' || c = '\x0b' || c = '\x0c'

/-- Python `str.isalnum` restricted to ASCII, matching the corpus texts. -/
def pyIsAlnum (c : Char) : Bool := c.isAlphanum

/-- Python `str.isalpha` restricted to ASCII. -/
def pyIsAlpha (c : Char) : Bool := c.isAlpha

/-- The regex word class `\w`: alphanumeric or underscore. -/
def pyIsWord (c : Char) : Bool := c.isAlphanum || c = '_'

/-- ASCII lowercase letter (regex class `[a-z]`). -/
def asciiLower (c : Char) : Bool := 'a' ≤ c && c ≤ 'z'

/-- ASCII uppercase letter (regex class `[A-Z]`). -/
def asciiUpper (c : Char) : Bool := 'A' ≤ c && c ≤ 'Z'

/-- ASCII letter (regex class `[a-zA-Z]`). -/
def asciiLetter (c : Char) : Bool := asciiLower c || asciiUpper c

/-- Python `str.lower` (ASCII case folding, as used on the corpus texts). -/
def pyLower (s : String) : String := String.mk (s.data.map Char.toLower)

/-- Python `str.strip` with no argument: drop leading and trailing
whitespace. -/
def pyStrip (s : String) : String :=
  String.mk (((s.data.dropWhile pyIsSpace).reverse.dropWhile pyIsSpace).reverse)

/-- Substring test (Python `needle in haystack`), on character lists. -/
def containsSub : List Char → List Char → Bool
  | needle, [] => needle.isEmpty
  | needle, c :: rest => needle.isPrefixOf (c :: rest) || containsSub needle rest

/-- Substring test on strings. -/
def strContains (haystack needle : String) : Bool :=
  containsSub needle.data haystack.data

/-- Worker for `pyWords`, with fuel bounded by the list length. -/
def splitWsFuel : Nat → List Char → List (List Char)
  | 0, _ => []
  | _, [] => []
  | fuel + 1, c :: rest =>
    if pyIsSpace c then splitWsFuel fuel rest
    else
      (c :: rest).takeWhile (fun d => !pyIsSpace d) ::
        splitWsFuel fuel ((c :: rest).dropWhile (fun d => !pyIsSpace d))

/-- Python `str.split()` with no argument: maximal runs of
non-whitespace characters, empties discarded. -/
def pyWords (s : String) : List String :=
  (splitWsFuel s.data.length s.data).map String.mk

/-- Python `' '.join(ws)`. -/
def joinSp : List String → String
  | [] => ""
  | [w] => w
  | w :: rest => w ++ " " ++ joinSp rest

/-- Python `sep.join(ws)` for an arbitrary separator. -/
def joinBy (sep : String) : List String → String
  | [] => ""
  | [w] => w
  | w :: rest => w ++ sep ++ joinBy sep rest

/-- Number of characters of `s` that are alphanumeric or whitespace
(the numerator of the readability ratios in the source). -/
def alnumSpaceCount (s : String) : Nat :=
  s.data.countP (fun c => pyIsAlnum c || pyIsSpace c)

/-- Number of alphanumeric characters of `s`. -/
def alnumCount (s : String) : Nat :=
  s.data.countP (fun c => pyIsAlnum c)

/-- `ratio ≥ 0.6` for `ratio = alnumSpaceCount s / length s`, with the
source's convention that an empty string has ratio `0`.  This is the
readability gate used for final chunks and for sentence filtering. -/
def readable60 (s : String) : Bool :=
  if s.length = 0 then false else decide (3 * s.length ≤ 5 * alnumSpaceCount s)

/-- Maximal-run collapser with fuel: every maximal run of a single
character `c` with `bad c` and run length at least `minRun` is replaced
by `repl c`; everything else is kept.  This is the semantics of the
source's `re.sub(r'(X)\1{2,}', ...)` passes (and of the underscore-run
passes, with other `minRun`). -/
def collapseRunsFuel (bad : Char → Bool) (repl : Char → List Char) (minRun : Nat) :
    Nat → List Char → List Char
  | 0, l => l
  | _, [] => []
  | fuel + 1, c :: rest =>
    let run := rest.takeWhile (fun d => d = c)
    if bad c && decide (minRun ≤ run.length + 1) then
      repl c ++ collapseRunsFuel bad repl minRun fuel (rest.dropWhile (fun d => d = c))
    else c :: collapseRunsFuel bad repl minRun fuel rest

/-- Run collapser entry point. -/
def collapseRuns (bad : Char → Bool) (repl : Char → List Char) (minRun : Nat)
    (l : List Char) : List Char :=
  collapseRunsFuel bad repl minRun l.length l

/-- The regex pass `re.sub(r'([a-z])([A-Z])', r'\1 \2', s)`: insert a
space between a lowercase letter directly followed by an uppercase
letter; the engine resumes after the matched pair. -/
def fixMerged : List Char → List Char
  | [] => []
  | [c] => [c]
  | a :: b :: rest =>
    if asciiLower a && asciiUpper b then a :: ' ' :: b :: fixMerged rest
    else a :: fixMerged (b :: rest)

/-- The regex pass `re.sub(r'\s+', ' ', s)`: collapse every maximal
whitespace run to a single space. -/
def collapseWs : List Char → List Char
  | [] => []
  | [c] => if pyIsSpace c then [' '] else [c]
  | c :: d :: rest =>
    if pyIsSpace c && pyIsSpace d then collapseWs (d :: rest)
    else (if pyIsSpace c then ' ' else c) :: collapseWs (d :: rest)

/-! ## Domain classifier (domain_classifier.py) -/

/-- The fixed keyword table `DomainClassifier.DOMAIN_KEYWORDS`. -/
def DOMAIN_KEYWORDS : List (String × List String) :=
  [("Passive Safety",
    ["passive safety", "crash", "collision", "impact", "airbag", "seatbelt",
     "restraint", "dummy", "hict", "chest deflection", "tibia", "intrusion",
     "frontal", "side impact", "pole test", "pedestrian", "post-crash",
     "r94", "r137", "fmvss 208", "ncap", "euro ncap", "offset barrier",
     "deformable barrier", "rigid barrier", "mpdb", "worldsid", "hybrid-iii",
     "thor", "hic", "injury criteria", "occupant protection"]),
   ("Functional Safety",
    ["functional safety", "iso 26262", "asil", "hara", "safety goal",
     "safety requirement", "safety concept", "safety lifecycle",
     "fusa", "safety integrity", "random failure", "systematic failure"]),
   ("Cybersecurity",
    ["cybersecurity", "r155", "cyber security", "threat", "vulnerability",
     "attack", "security", "unauthorized access", "data protection"]),
   ("ADAS",
    ["adas", "advanced driver assistance", "autonomous", "self-driving",
     "lane keeping", "adaptive cruise", "collision avoidance", "aeb"]),
   ("Driver Monitoring",
    ["driver monitoring", "dms", "driver attention", "fatigue",
     "driver state", "driver distraction", "eye tracking"]),
   ("Software Update",
    ["software update", "r156", "ota", "over the air", "firmware update",
     "software version", "update management"]),
   ("Validation",
    ["validation", "testing", "test case", "verification", "test scenario",
     "test procedure", "test coverage"])]

/-- Number of keywords of one domain that occur as substrings of the
lowercased question (the `score` accumulated in `classify_domain`). -/
def keywordScore (kws : List String) (questionLower : String) : Nat :=
  (kws.filter (fun kw => containsSub kw.data questionLower.data)).length

/-- The score dictionary built over an arbitrary keyword table, in
insertion order: one entry per domain whose score is positive. -/
def scoresOver (tbl : List (String × List String)) (question : String) :
    List (String × Nat) :=
  tbl.filterMap (fun e =>
    let score := keywordScore e.2 (pyLower question)
    if 0 < score then some (e.1, score) else none)

/-- The `domain_scores` dictionary of `classify_domain`, in insertion
order: one entry per domain of the table whose score is positive. -/
def domainScores (question : String) : List (String × Nat) :=
  scoresOver DOMAIN_KEYWORDS question

/-- Stable-descending insertion for `sorted(..., key=score, reverse=True)`:
a later element is placed after every earlier element whose score is at
least as large. -/
def insertScoreDesc (x : String × Nat) : List (String × Nat) → List (String × Nat)
  | [] => [x]
  | y :: ys => if y.2 < x.2 then x :: y :: ys else y :: insertScoreDesc x ys

/-- Python `sorted(items, key=lambda x: x[1], reverse=True)` (stable). -/
def sortScoresDesc (l : List (String × Nat)) : List (String × Nat) :=
  l.foldl (fun acc x => insertScoreDesc x acc) []

/-- `DomainClassifier.classify_domain`: the domains with a positive
keyword score, ordered by descending score (stable on ties). -/
def classify_domain (question : String) : List String :=
  (sortScoresDesc (domainScores question)).map Prod.fst

/-- `DomainClassifier.get_primary_domain`: head of the classification,
or the default when no keyword matched. -/
def get_primary_domain (question : String) : String :=
  match classify_domain question with
  | [] => "General Safety"
  | d :: _ => d

/-! ## Standard comparison and conflict detection (synthesis_agent.py) -/

/-- A chunk held by the retrieval index: `DocumentChunk` of
document_processor.py.  Similarity scores kept alongside are modelled as
rationals. -/
structure DocumentChunk where
  text : String
  document_name : String
  page_number : Nat
  section_number : Option String := none
  chunk_id : Option String := none
  origin : Option String := none
  domain : Option String := none
  strictness : Option String := none
  method : Option String := none
  year : Option Int := none
  source_type : Option String := none
  test_type : Option String := none
  metric : Option String := none
  dummy_type : Option String := none
deriving DecidableEq

/-- The per-chunk dictionary built by
`StandardComparator.extract_standard_info`. -/
structure StandardRecord where
  document : String
  origin : Option String
  method : Option String
  domain : Option String
  strictness : Option String
  year : Option Int
  text : String
  page : Nat
  «section» : Option String
  similarity : ℚ
deriving DecidableEq

/-- `StandardComparator.extract_standard_info`. -/
def extract_standard_info (chunks : List (DocumentChunk × ℚ)) : List StandardRecord :=
  chunks.map (fun p =>
    { document := p.1.document_name
      origin := p.1.origin
      method := p.1.method
      domain := p.1.domain
      strictness := p.1.strictness
      year := p.1.year
      text := p.1.text
      page := p.1.page_number
      «section» := p.1.section_number
      similarity := p.2 })

/-- Python string interpolation of an optional string: `None` prints as
the four-letter word `"None"`. -/
def pyShowOptStr : Option String → String
  | none => "None"
  | some s => s

/-- The grouping key `f"{std.get('domain', 'Unknown')}_{std.get('method', 'Unknown')}"`
of `detect_conflicts`; the records built by `extract_standard_info`
always carry both keys, so a missing value is Python `None`. -/
def conflictKey (r : StandardRecord) : String :=
  pyShowOptStr r.domain ++ "_" ++ pyShowOptStr r.method

/-- One conflict entry appended by `detect_conflicts`. -/
structure ConflictRecord where
  standard : String
  sources : List StandardRecord
  conflict_type : String
deriving DecidableEq

/-- Insert a record into the ordered group dictionary, as
`grouped[key].append(std)` with insertion-ordered keys does. -/
def addToGroups : List (String × List StandardRecord) → String → StandardRecord →
    List (String × List StandardRecord)
  | [], k, r => [(k, [r])]
  | (k0, g) :: rest, k, r =>
    if k0 = k then (k0, g ++ [r]) :: rest else (k0, g) :: addToGroups rest k r

/-- The `grouped` dictionary of `detect_conflicts`: keys in first-seen
order, each mapped to the records with that key in input order. -/
def groupedOf (standards : List StandardRecord) : List (String × List StandardRecord) :=
  standards.foldl (fun acc r => addToGroups acc (conflictKey r) r) []

/-- Size of the Python `set` of a list of optional strings: the number
of distinct values. -/
def pySetSize (l : List (Option String)) : Nat :=
  (l.foldl (fun acc x => if x ∈ acc then acc else acc ++ [x]) []).length

/-- The conflict condition checked per group: more than one member and
more than one distinct origin or more than one distinct strictness. -/
def conflictCond (g : List StandardRecord) : Bool :=
  decide (1 < g.length) &&
    (decide (1 < pySetSize (g.map (fun r => r.origin))) ||
     decide (1 < pySetSize (g.map (fun r => r.strictness))))

/-- `StandardComparator.detect_conflicts`. -/
def detect_conflicts (standards : List StandardRecord) : List ConflictRecord :=
  (groupedOf standards).filterMap (fun e =>
    if conflictCond e.2 then
      some { standard := e.1, sources := e.2, conflict_type := "multiple_interpretations" }
    else none)

/-! ## Document processor (document_processor.py) -/

/-- The control characters removed by the first cleaning pass
(`[\x00-\x08\x0b-\x0c\x0e-\x1f\x7f-\x9f]`). -/
def isCtrlChar (c : Char) : Bool :=
  c.toNat ≤ 0x08 || c.toNat = 0x0b || c.toNat = 0x0c ||
  (0x0e ≤ c.toNat && c.toNat ≤ 0x1f) || (0x7f ≤ c.toNat && c.toNat ≤ 0x9f)

/-- Characters kept by the garbled-run pass: word characters, whitespace
and the allowed technical-symbol set of the regex
`[^\w\s\-.,;:()\[\]{}%°±×÷≤≥≠≈∞∑∏∫√αβγδεθλμπστφω]`. -/
def allowedSymbol (c : Char) : Bool :=
  pyIsWord c || pyIsSpace c ||
    ['-', '.', ',', ';', ':', '(', ')', '[', ']', '\x7b', '\x7d', '%', '°', '±',
     '×', '÷', '≤', '≥', '≠', '≈', '∞', '∑', '∏', '∫', '√', 'α', 'β', 'γ', 'δ',
     'ε', 'θ', 'λ', 'μ', 'π', 'σ', 'τ', 'φ', 'ω'].contains c

/-- The four cleaning passes applied by `chunk_text` before splitting:
control characters to spaces, merged-word repair, whitespace collapse,
and collapse of runs of 3+ identical disallowed characters. -/
def cleanPageText (text : String) : String :=
  let s1 := text.data.map (fun c => if isCtrlChar c then ' ' else c)
  let s2 := fixMerged s1
  let s3 := collapseWs s2
  let s4 := collapseRuns (fun c => !allowedSymbol c) (fun _ => [' ']) 3 s3
  String.mk s4

/-- Leading digit run and remainder. -/
def takeDigits (l : List Char) : List Char × List Char :=
  (l.takeWhile Char.isDigit, l.dropWhile Char.isDigit)

/-- Greedy star loop of `(?:\.\d+)*`, with fuel bounded by the list
length; returns the consumed characters and the remainder. -/
def dottedTailFuel : Nat → List Char → List Char × List Char
  | 0, l => ([], l)
  | fuel + 1, l =>
    match l with
    | '.' :: r =>
      let ds := r.takeWhile Char.isDigit
      if ds = [] then ([], l)
      else
        let p := dottedTailFuel fuel (r.dropWhile Char.isDigit)
        ('.' :: (ds ++ p.1), p.2)
    | _ => ([], l)

/-- Parse `\d+\.\d+(?:\.\d+)*` at the head of the list, returning the
matched characters and the remainder. -/
def parseDotted (l : List Char) : Option (List Char × List Char) :=
  let d1 := l.takeWhile Char.isDigit
  if d1 = [] then none
  else
    match l.dropWhile Char.isDigit with
    | '.' :: r2 =>
      let d2 := r2.takeWhile Char.isDigit
      if d2 = [] then none
      else
        let p := dottedTailFuel (r2.dropWhile Char.isDigit).length (r2.dropWhile Char.isDigit)
        some (d1 ++ '.' :: (d2 ++ p.1), p.2)
    | _ => none

/-- Case-insensitive literal prefix match, returning the remainder. -/
def ciPrefix (kw : List Char) (l : List Char) : Option (List Char) :=
  if kw.length ≤ l.length && ((l.take kw.length).map Char.toLower == kw) then
    some (l.drop kw.length)
  else none

/-- Try the alternation `Section|Clause|Part` (case-insensitively) at the
head of the list. -/
def sectionKwAt (l : List Char) : Option (List Char) :=
  ((ciPrefix ("section").data l).orElse fun _ =>
    (ciPrefix ("clause").data l).orElse fun _ =>
      ciPrefix ("part").data l)

/-- One attempt of `(?:Section|Clause|Part)\s+(\d+\.\d+(?:\.\d+)*)` at
the given position, returning the captured group. -/
def sectionPatternAt (l : List Char) : Option String :=
  (sectionKwAt l).bind (fun r1 =>
    match r1 with
    | c :: r2 =>
      if pyIsSpace c then
        (parseDotted (r2.dropWhile pyIsSpace)).map (fun p => String.mk p.1)
      else none
    | [] => none)

/-- Leftmost search of a position matcher over the text, as `re.search`
scans. -/
def scanFor {α : Type} (f : List Char → Option α) : List Char → Option α
  | [] => none
  | c :: rest => (f (c :: rest)).orElse (fun _ => scanFor f rest)

/-- First line (of the given ones) whose check succeeds. -/
def firstSomeLine (f : String → Option String) : List String → Option String
  | [] => none
  | x :: rest => (f x).orElse (fun _ => firstSomeLine f rest)

/-- The per-line check of the ISO pattern `^\b\d+\.\d+(?:\.\d+)*
(?:\s+[A-Z][a-z]+)?` on the stripped line; the returned value is always
the leading dotted numeral (the source splits off the optional
capitalized word again). -/
def isoLineCheck (line : String) : Option String :=
  (parseDotted (pyStrip line).data).map (fun p => String.mk p.1)

/-- `DocumentProcessor.extract_section_numbers`. -/
def extract_section_numbers (text : String) : Option String :=
  match scanFor sectionPatternAt text.data with
  | some s => some s
  | none => firstSomeLine isoLineCheck ((text.splitOn "\n").take 3)

/-- The metadata dictionary carried from `extract_metadata_from_path`
onto every chunk of a document. -/
structure PathMetadata where
  origin : Option String := none
  domain : Option String := none
  strictness : Option String := none
  method : Option String := none
  year : Option Int := none
  source_type : Option String := none
  test_type : Option String := none
  metric : Option String := none
  dummy_type : Option String := none
deriving DecidableEq

/-- Character cost of one word in the accumulating buffer: its length
plus one for the separating space. -/
def wordCost (w : String) : Nat := w.length + 1

/-- Accumulated character length of a word buffer. -/
def sumLen (ws : List String) : Nat := (ws.map wordCost).sum

/-- Loop state of the chunking `for word in words` loop: emitted word
buffers, the current buffer, and its accumulated length. -/
structure ChunkLoopState where
  bufs : List (List String)
  cur : List String
  curLen : Nat
deriving DecidableEq

/-- One iteration of the chunking loop: append the word; when the
accumulated length reaches the chunk size, emit the buffer and reseed it
with the trailing overlap words. -/
def chunkStep (size ovCnt : Nat) (st : ChunkLoopState) (w : String) : ChunkLoopState :=
  let cur2 := st.cur ++ [w]
  let len2 := st.curLen + w.length + 1
  if size ≤ len2 then
    let ov := if ovCnt < cur2.length then cur2.drop (cur2.length - ovCnt) else cur2
    { bufs := st.bufs ++ [cur2], cur := ov, curLen := sumLen ov }
  else { bufs := st.bufs, cur := cur2, curLen := len2 }

/-- The whole chunking loop over the page's words. -/
def chunkLoop (size ovCnt : Nat) (ws : List String) : ChunkLoopState :=
  ws.foldl (chunkStep size ovCnt) { bufs := [], cur := [], curLen := 0 }

/-- `overlap_words_count = max(1, len(words) * chunk_overlap // chunk_size)
if words else 0`, computed once per page. -/
def overlapWordsCount (size overlap : Nat) (ws : List String) : Nat :=
  if ws = [] then 0 else max 1 (ws.length * overlap / size)

/-- The word buffers of all emitted chunks of one page: the loop
emissions followed by the trailing buffer, the latter gated by the
0.6 readability ratio of its joined text. -/
def chunkBufs (size overlap : Nat) (ws : List String) : List (List String) :=
  let st := chunkLoop size (overlapWordsCount size overlap ws) ws
  st.bufs ++ (if st.cur ≠ [] ∧ readable60 (joinSp st.cur) = true then [st.cur] else [])

/-- Build one `DocumentChunk` from a chunk text, its intra-page index
and the document metadata, exactly as the loop body does. -/
def mkChunkFrom (docName : String) (page : Nat) (md : PathMetadata) (idx : Nat)
    (txt : String) : DocumentChunk :=
  { text := txt
    document_name := docName
    page_number := page
    section_number := extract_section_numbers txt
    chunk_id := some (docName ++ "_p" ++ toString page ++ "_c" ++ toString idx)
    origin := md.origin
    domain := md.domain
    strictness := md.strictness
    method := md.method
    year := md.year
    source_type := md.source_type
    test_type := md.test_type
    metric := md.metric
    dummy_type := md.dummy_type }

/-- `DocumentProcessor.chunk_text`: guard empty pages, clean, split into
words, run the chunking loop, and materialize the chunks. -/
def chunk_text (size overlap : Nat) (text : String) (page : Nat) (docName : String)
    (md : PathMetadata) : List DocumentChunk :=
  if pyStrip text = "" then []
  else
    let ws := pyWords (cleanPageText text)
    (chunkBufs size overlap ws).enum.map
      (fun p => mkChunkFrom docName page md p.1 (joinSp p.2))

/-! ## Source extractor (source_extractor.py) -/

/-- Literal match at the head of the list, returning the remainder. -/
def eatLit (lit : List Char) (l : List Char) : Option (List Char) :=
  if lit.isPrefixOf l then some (l.drop lit.length) else none

/-- `\s+` at the head of the list (greedy), returning the remainder. -/
def eatWsPlus (l : List Char) : Option (List Char) :=
  match l with
  | c :: rest => if pyIsSpace c then some (rest.dropWhile pyIsSpace) else none
  | [] => none

/-- The regex word boundary `\b` placed after a character `prev`:
it matches when exactly one side of the position is a word character. -/
def wordBoundaryAfter (prev : Char) (l : List Char) : Bool :=
  match l with
  | [] => pyIsWord prev
  | c :: _ => pyIsWord prev != pyIsWord c

/-- Literal followed by `\b`. -/
def eatLitWithBoundary (lit : List Char) (l : List Char) : Bool :=
  match eatLit lit l with
  | some rest =>
    match lit.getLast? with
    | some p => wordBoundaryAfter p rest
    | none => false
  | none => false

/-- Existence of a match anywhere in the text (Bool matcher variant of
`re.search`). -/
def scanBool (f : List Char → Bool) : List Char → Bool
  | [] => false
  | c :: rest => f (c :: rest) || scanBool f rest

/-- One attempt, at a given position, of the four page-reference
patterns `page\s+N\b`, `p\.\s*N\b`, `pg\.?\s*N\b`, `p\s+N\b` of
`extract_cited_sources`. -/
def pageRefAt (numStr : List Char) (l : List Char) : Bool :=
  (match eatLit ("page").data l with
   | some r1 =>
     match eatWsPlus r1 with
     | some r2 => eatLitWithBoundary numStr r2
     | none => false
   | none => false) ||
  (match eatLit ("p.").data l with
   | some r1 => eatLitWithBoundary numStr (r1.dropWhile pyIsSpace)
   | none => false) ||
  (match eatLit ("pg").data l with
   | some r1 =>
     let r2 := match r1 with | '.' :: t => t | _ => r1
     eatLitWithBoundary numStr (r2.dropWhile pyIsSpace)
   | none => false) ||
  (match eatLit ("p").data l with
   | some r1 =>
     match eatWsPlus r1 with
     | some r2 => eatLitWithBoundary numStr r2
     | none => false
   | none => false)

/-- One attempt of the two section-reference patterns
`section\s+S\b` and `sec\.?\s+S\b` (the section string is matched
literally, as `re.escape` makes it). -/
def sectionRefAt (sec : List Char) (l : List Char) : Bool :=
  (match eatLit ("section").data l with
   | some r1 =>
     match eatWsPlus r1 with
     | some r2 => eatLitWithBoundary sec r2
     | none => false
   | none => false) ||
  (match eatLit ("sec").data l with
   | some r1 =>
     let r2 := match r1 with | '.' :: t => t | _ => r1
     match eatWsPlus r2 with
     | some r3 => eatLitWithBoundary sec r3
     | none => false
   | none => false)

/-- A retrieved-source dictionary as consumed by
`extract_cited_sources`: the four keys the function reads. -/
structure CitedSource where
  document_name : String := ""
  page_number : Option Nat := none
  section_number : Option String := none
  similarity_score : ℚ := 0
deriving DecidableEq

/-- The document-name checks of `extract_cited_sources`: full name,
stem with the pdf extension stripped, or any of the first three
stem words longer than three characters. -/
def docMentioned (docName : String) (answerLower : String) : Bool :=
  if docName = "" then false
  else
    let stem := (docName.replace (".pdf") ("")).replace (".PDF") ("")
    let docWords := pyWords stem
    let keyWords := docWords.filter (fun w => 3 < w.length)
    strContains answerLower (pyLower docName) ||
      strContains answerLower (pyLower stem) ||
      (decide (0 < docWords.length) &&
        (keyWords.take 3).any (fun w => strContains answerLower (pyLower w)))

/-- The page-number check (skipped for a missing or zero page, which is
falsy in Python). -/
def pageMentioned (page : Option Nat) (answerLower : String) : Bool :=
  match page with
  | none => false
  | some n => if n = 0 then false else scanBool (pageRefAt (toString n).data) answerLower.data

/-- The section check (skipped for a missing or empty section). -/
def sectionMentioned (sec : Option String) (answerLower : String) : Bool :=
  match sec with
  | none => false
  | some s => if s = "" then false else scanBool (sectionRefAt s.data) answerLower.data

/-- Stable-descending insertion by similarity score. -/
def insertSourceDesc (x : CitedSource) : List CitedSource → List CitedSource
  | [] => [x]
  | y :: ys =>
    if y.similarity_score < x.similarity_score then x :: y :: ys
    else y :: insertSourceDesc x ys

/-- Python `sorted(all_sources, key=similarity_score, reverse=True)`
(stable). -/
def sortSourcesDesc (l : List CitedSource) : List CitedSource :=
  l.foldl (fun acc x => insertSourceDesc x acc) []

/-- The loop body of `extract_cited_sources`: a source qualifies when
its document, page or section is mentioned or its similarity is at
least 0.6; qualifying sources are appended unless their
(document, page) pair was already seen. -/
def citedStep (answerLower : String)
    (st : List CitedSource × List (String × Option Nat)) (source : CitedSource) :
    List CitedSource × List (String × Option Nat) :=
  if docMentioned source.document_name answerLower ||
      pageMentioned source.page_number answerLower ||
      sectionMentioned source.section_number answerLower ||
      decide ((3 : ℚ)/5 ≤ source.similarity_score) then
    if (source.document_name, source.page_number) ∈ st.2 then st
    else (st.1 ++ [source], st.2 ++ [(source.document_name, source.page_number)])
  else st

/-- `extract_cited_sources`: keep each source mentioned by document,
page or section or with similarity at least 0.6, deduplicated by
(document, page); when none qualifies, fall back to the top three
sources by similarity. -/
def extract_cited_sources (answer : String) (all_sources : List CitedSource) :
    List CitedSource :=
  if answer = "" ∨ all_sources = [] then []
  else
    let st := all_sources.foldl (citedStep (pyLower answer)) ([], [])
    if st.1 ≠ [] then st.1
    else (sortSourcesDesc all_sources).take 3

/-! ## Table extraction (synthesis_agent.py, `TableExtractor`) -/

/-- The pattern `\|\s*[^\|]+\s*\|`: two pipes with at least one
non-pipe character strictly between them. -/
def hasPipePair : List Char → Bool
  | [] => false
  | '|' :: rest =>
    (decide ((rest.takeWhile (fun c => c ≠ '|')) ≠ []) &&
      decide ((rest.dropWhile (fun c => c ≠ '|')) ≠ [])) || hasPipePair rest
  | _ :: rest => hasPipePair rest

/-- One attempt of `\s{3,}[^\s]+\s{3,}` at a position. -/
def spacedColsAt (l : List Char) : Bool :=
  if (l.takeWhile pyIsSpace).length < 3 then false
  else
    let r1 := l.dropWhile pyIsSpace
    if r1.takeWhile (fun c => !pyIsSpace c) = [] then false
    else 3 ≤ ((r1.dropWhile (fun c => !pyIsSpace c)).takeWhile pyIsSpace).length

/-- The pattern `\t+[^\t]+`: a tab whose run is followed by a non-tab
character. -/
def tabThenNonTab : List Char → Bool
  | '\t' :: c :: rest => decide (c ≠ '\t') || tabThenNonTab (c :: rest)
  | _ :: rest => tabThenNonTab rest
  | [] => false

/-- One line against `^\s*\d+\.\d+\s+[A-Z]`. -/
def numberedRowLine (line : String) : Bool :=
  let r1 := line.data.dropWhile pyIsSpace
  if r1.takeWhile Char.isDigit = [] then false
  else
    match r1.dropWhile Char.isDigit with
    | '.' :: r2 =>
      if r2.takeWhile Char.isDigit = [] then false
      else
        match r2.dropWhile Char.isDigit with
        | c :: r3 =>
          pyIsSpace c &&
            (match r3.dropWhile pyIsSpace with
             | u :: _ => asciiUpper u
             | [] => false)
        | [] => false
    | _ => false

/-- One attempt of `ASIL\s+[A-D]` at a position. -/
def asilAt (l : List Char) : Bool :=
  match eatLit ("ASIL").data l with
  | some r1 =>
    match eatWsPlus r1 with
    | some r2 =>
      match r2 with
      | c :: _ => 'A' ≤ c && c ≤ 'D'
      | [] => false
    | none => false
  | none => false

/-- One attempt of `HIC\s+\d+` at a position. -/
def hicAt (l : List Char) : Bool :=
  match eatLit ("HIC").data l with
  | some r1 =>
    match eatWsPlus r1 with
    | some r2 => decide (r2.takeWhile Char.isDigit ≠ [])
    | none => false
  | none => false

/-- `TableExtractor.detect_table`: any of the six table indicators. -/
def detect_table (text : String) : Bool :=
  hasPipePair text.data ||
    scanBool spacedColsAt text.data ||
    tabThenNonTab text.data ||
    ((text.splitOn "\n").any numberedRowLine) ||
    scanBool asilAt text.data ||
    scanBool hicAt text.data

/-- The structured result of `extract_table_data`. -/
structure TableData where
  has_table : Bool
  rows : List (List String)
  headers : List String
  type : Option String
deriving DecidableEq

/-- `[cell.strip() for cell in line.split('|') if cell.strip()]`. -/
def mdCells (line : String) : List String :=
  ((line.splitOn "|").map pyStrip).filter (fun c => c ≠ "")

/-- One cell of a markdown separator row. -/
def isSeparatorCell (c : String) : Bool := c = "---" || c = ":" || c = "-"

/-- Column-separator search `re.search(r'\s{3,}|\t+', line)`. -/
def hasColSep (l : List Char) : Bool :=
  scanBool (fun m => decide (3 ≤ (m.takeWhile pyIsSpace).length) || m.headD ' ' = '\t') l

/-- Worker for `splitCols`: split on `\s{3,}|\t+` with the alternation
tried in order and greedy runs, keeping empty pieces as `re.split`
does. -/
def splitColsFuel : Nat → List Char → List Char → List String
  | 0, acc, _ => [String.mk acc.reverse]
  | _, acc, [] => [String.mk acc.reverse]
  | fuel + 1, acc, c :: rest =>
    if 3 ≤ ((c :: rest).takeWhile pyIsSpace).length then
      String.mk acc.reverse :: splitColsFuel fuel [] ((c :: rest).dropWhile pyIsSpace)
    else if c = '\t' then
      String.mk acc.reverse :: splitColsFuel fuel [] (rest.dropWhile (fun d => d = '\t'))
    else splitColsFuel fuel (c :: acc) rest

/-- `re.split(r'\s{3,}|\t+', s)`. -/
def splitCols (s : String) : List String := splitColsFuel s.data.length [] s.data

/-- `TableExtractor.extract_table_data`: markdown-table parsing first
(lines containing a pipe, except the last line; first line gives the
headers, later non-separator lines the rows), then whitespace/tab
column splitting requiring at least two candidate rows. -/
def extract_table_data (text : String) : Option TableData :=
  let lines := text.splitOn "\n"
  let n := lines.length
  let mdFlag := lines.enum.any (fun p => strContains p.2 ("|") && decide (p.1 < n - 1))
  let headers0 :=
    match lines with
    | l0 :: _ :: _ => if strContains l0 ("|") then mdCells l0 else []
    | _ => []
  let mdRows := lines.enum.filterMap (fun p =>
    if 0 < p.1 ∧ p.1 < n - 1 ∧ strContains p.2 ("|") = true then
      let cells := mdCells p.2
      if cells ≠ [] ∧ ¬(cells.all isSeparatorCell = true) then some cells else none
    else none)
  if mdFlag ∧ mdRows ≠ [] then
    some { has_table := true, rows := mdRows, headers := headers0, type := some ("markdown") }
  else
    let potential := lines.filterMap (fun line =>
      if hasColSep line.data then
        let parts := splitCols (pyStrip line)
        if 2 ≤ parts.length then some parts else none
      else none)
    if 2 ≤ potential.length then
      some { has_table := true, rows := potential.tail, headers := potential.headD [],
             type := some ("space_separated") }
    else none

/-- One entry of the `tables` list assembled by `synthesis_agent`. -/
structure TableHit where
  document : String
  page : Nat
  «section» : Option String
  table_data : TableData
  context : String
deriving DecidableEq

/-- Python slice `s[:500]`. -/
def pySlice500 (s : String) : String := String.mk (s.data.take 500)

/-! ## Answer post-processing (synthesis_agent.py, lines 431-501) -/

/-- Replacement engine for one `re.sub` pass: the matcher returns the
number of characters one match consumes at the current position; the
scan replaces every non-overlapping leftmost match.  Fuel is bounded by
the list length; every matcher used consumes at least one character. -/
def rsubFuel (m : List Char → Option Nat) (repl : List Char) :
    Nat → List Char → List Char
  | 0, l => l
  | _, [] => []
  | fuel + 1, c :: rest =>
    match m (c :: rest) with
    | some n => repl ++ rsubFuel m repl fuel ((c :: rest).drop (max 1 n))
    | none => c :: rsubFuel m repl fuel rest

/-- Entry point of the replacement engine. -/
def rsub (m : List Char → Option Nat) (repl : List Char) (l : List Char) : List Char :=
  rsubFuel m repl l.length l

/-- Matcher for `\[Document[^\]]+\]`. -/
def mDocBracket (l : List Char) : Option Nat :=
  match eatLit ("[Document").data l with
  | some r =>
    let mid := r.takeWhile (fun c => c ≠ ']')
    if mid = [] then none
    else
      match r.dropWhile (fun c => c ≠ ']') with
      | ']' :: _ => some (9 + mid.length + 1)
      | _ => none
  | none => none

/-- Matcher for `\(Document[^\)]+\)`. -/
def mDocParen (l : List Char) : Option Nat :=
  match eatLit ("(Document").data l with
  | some r =>
    let mid := r.takeWhile (fun c => c ≠ ')')
    if mid = [] then none
    else
      match r.dropWhile (fun c => c ≠ ')') with
      | ')' :: _ => some (9 + mid.length + 1)
      | _ => none
  | none => none

/-- Matcher for `Page \d+`. -/
def mPageNum (l : List Char) : Option Nat :=
  match eatLit ("Page ").data l with
  | some r =>
    let ds := r.takeWhile Char.isDigit
    if ds = [] then none else some (5 + ds.length)
  | none => none

/-- Matcher for `Section [^\s]+`. -/
def mSectionTok (l : List Char) : Option Nat :=
  match eatLit ("Section ").data l with
  | some r =>
    let t := r.takeWhile (fun c => !pyIsSpace c)
    if t = [] then none else some (8 + t.length)
  | none => none

/-- Matcher for `\([^\)]*W[^\)]*\)` for a given word `W` (used with
`Origin` and `Method`). -/
def mParenWith (word : List Char) (l : List Char) : Option Nat :=
  match l with
  | '(' :: r =>
    let mid := r.takeWhile (fun c => c ≠ ')')
    if containsSub word mid then
      match r.dropWhile (fun c => c ≠ ')') with
      | ')' :: _ => some (1 + mid.length + 1)
      | _ => none
    else none
  | _ => none

/-- Matcher for `\s+_\s+`. -/
def mWsUnderscoreWs (l : List Char) : Option Nat :=
  match l with
  | c :: _ =>
    if pyIsSpace c then
      let ws1 := l.takeWhile pyIsSpace
      match l.dropWhile pyIsSpace with
      | '_' :: r2 =>
        let ws2 := r2.takeWhile pyIsSpace
        if ws2 = [] then none else some (ws1.length + 1 + ws2.length)
      | _ => none
    else none
  | [] => none

/-- Matcher for `_\d+`. -/
def mUnderscoreNum (l : List Char) : Option Nat :=
  match l with
  | '_' :: r =>
    let ds := r.takeWhile Char.isDigit
    if ds = [] then none else some (1 + ds.length)
  | _ => none

/-- Worker for `splitSentences`: `re.split(r'[.!?]\s+', s)`, the
punctuation and the following whitespace run both consumed. -/
def splitSentencesFuel : Nat → List Char → List Char → List String
  | 0, acc, _ => [String.mk acc.reverse]
  | _, acc, [] => [String.mk acc.reverse]
  | fuel + 1, acc, c :: rest =>
    if (c = '.' || c = '!' || c = '?') &&
        (match rest with | d :: _ => pyIsSpace d | [] => false) then
      String.mk acc.reverse :: splitSentencesFuel fuel [] (rest.dropWhile pyIsSpace)
    else splitSentencesFuel fuel (c :: acc) rest

/-- `re.split(r'[.!?]\s+', s)`. -/
def splitSentences (s : String) : List String :=
  splitSentencesFuel s.data.length [] s.data

/-- The citation-stripping, garble-collapsing and token-filtering passes
of lines 435-468, applied before the sentence filter. -/
def ppScrub (s : String) : String :=
  let a1 := rsub mDocBracket [] s.data
  let a2 := rsub mDocParen [] a1
  let a3 := rsub mPageNum [] a2
  let a4 := rsub mSectionTok [] a3
  let a5 := rsub (mParenWith ("Origin").data) [] a4
  let a6 := rsub (mParenWith ("Method").data) [] a5
  let b1 := collapseRuns asciiLetter (fun c => [c]) 3 a6
  let b2 := collapseRuns (fun c => !(pyIsWord c || pyIsSpace c)) (fun _ => [' ']) 3 b1
  let b3 := collapseRuns (fun c => c = '_') (fun _ => [' ']) 3 b2
  let b4 := collapseRuns (fun c => c = '_') (fun _ => [' ']) 2 b3
  let b5 := rsub mWsUnderscoreWs [' '] b4
  let b6 := rsub mUnderscoreNum [' '] b5
  let c1 := fixMerged b6
  let ws := splitWsFuel c1.length c1
  let kept := ws.filter (fun w =>
    !(w.length = 1 && (w.headD ' ').isAlpha) &&
      !(decide (w.length < 2 * (w.countP (fun c => !pyIsAlnum c)))))
  let d1 := joinSp (kept.map String.mk)
  let d2 := d1.data.map (fun c => if allowedSymbol c then c else ' ')
  String.mk (collapseWs d2)

/-- The per-sentence filter of lines 473-482: strip, keep only
sentences of stripped length at least 10, drop sentences with more than
30 percent single-letter tokens, keep sentences whose
alphanumeric-or-whitespace ratio is at least 0.6. -/
def keepSentence (sent : String) : Option String :=
  let st := pyStrip sent
  if st ≠ "" ∧ 10 ≤ st.length then
    let ws := pyWords sent
    let singles := (ws.filter (fun w => w.length = 1 && (w.data.headD ' ').isAlpha)).length
    if 0 < ws.length ∧ 3 * ws.length < 10 * singles then none
    else if readable60 sent then some st
    else none
  else none

/-- The sentences surviving the post-processing sentence filter. -/
def ppKeptSentences (t : String) : List String :=
  (splitSentences t).filterMap keepSentence

/-- The three-word-phrase fallback of lines 488-494: consecutive word
triples whose alphanumeric character density is at least 0.6. -/
def ppPhrases (t : String) : List String :=
  let ws := pyWords t
  (List.range (ws.length - 2)).filterMap (fun i =>
    let phrase := joinSp [ws.getD i "", ws.getD (i + 1) "", ws.getD (i + 2) ""]
    if 3 * phrase.length ≤ 5 * alnumCount phrase then some phrase else none)

/-- The fixed refusal sentence emitted when neither a sentence nor a
phrase survives post-processing. -/
def ppGarbledRefusal : String :=
  "I found some information in the documents, but it appears to be unclear or garbled. Please try rephrasing your question or check if the documents contain clear information about this topic."

/-- The final whitespace collapse and strip of lines 500-501. -/
def ppFinalClean (s : String) : String := pyStrip (String.mk (collapseWs s.data))

/-- The whole answer post-processing stage of `synthesis_agent`
(lines 431-501). -/
def postProcess (s : String) : String :=
  let t := ppScrub s
  let cs := ppKeptSentences t
  ppFinalClean
    (if cs ≠ [] then joinBy (". ") cs ++ "."
     else
       let ph := ppPhrases t
       if ph ≠ [] then joinBy (". ") (ph.take 3) ++ "."
       else ppGarbledRefusal)

/-! ## LLM provider fallback (synthesis_agent.py, lines 299-373) -/

/-- Abstract outcome of one provider call: a response text, or one of
the error classes the handlers distinguish (by substring of the raised
message in the source). -/
inductive LLMOutcome where
  | success (text : String)
  | errNotFound
  | errAuth
  | errRateLimit
  | errOther
deriving DecidableEq

/-- The network environment: whether each client is initialized, and
the outcome each successive call would produce. -/
structure LLMEnv where
  claudeAvailable : Bool
  claudeOutcomes : List LLMOutcome
  openaiAvailable : Bool
  openaiOutcomes : List LLMOutcome
deriving DecidableEq

/-- The ordered Anthropic model fallback list. -/
def claudeModels : List String :=
  ["claude-3-5-sonnet-20241022", "claude-3-5-sonnet-20240620",
   "claude-3-opus-20240229", "claude-3-sonnet-20240229"]

/-- The ordered OpenAI model fallback list. -/
def openaiModels : List String :=
  ["gpt-4-turbo-preview", "gpt-4-1106-preview", "gpt-4"]

/-- The Anthropic loop: per model, a stripped non-empty response is
accepted; an empty response or a not-found or other error moves to the
next model; an authentication or rate-limit error breaks out of the
loop.  Returns the accepted text (empty when none) and the number of
calls made. -/
def runClaudeLoop : List String → List LLMOutcome → String × Nat
  | [], _ => ("", 0)
  | _ :: ms, outs =>
    match outs.headD LLMOutcome.errOther with
    | LLMOutcome.success t =>
      if pyStrip t = "" then
        let p := runClaudeLoop ms outs.tail
        (p.1, p.2 + 1)
      else (pyStrip t, 1)
    | LLMOutcome.errNotFound =>
      let p := runClaudeLoop ms outs.tail
      (p.1, p.2 + 1)
    | LLMOutcome.errAuth => ("", 1)
    | LLMOutcome.errRateLimit => ("", 1)
    | LLMOutcome.errOther =>
      let p := runClaudeLoop ms outs.tail
      (p.1, p.2 + 1)

/-- The OpenAI loop: a response breaks the loop whatever its content;
a not-found error moves to the next model; any other error breaks out of
the loop. -/
def runOpenAILoop : List String → List LLMOutcome → String × Nat
  | [], _ => ("", 0)
  | _ :: ms, outs =>
    match outs.headD LLMOutcome.errOther with
    | LLMOutcome.success t => (pyStrip t, 1)
    | LLMOutcome.errNotFound =>
      let p := runOpenAILoop ms outs.tail
      (p.1, p.2 + 1)
    | _ => ("", 1)

/-- The provider phase of `synthesis_agent`: Anthropic first when its
client exists, then OpenAI when no text resulted and its client exists.
The prompt is consumed by the abstract environment.  Returns the raw
synthesis text (possibly empty) and the total number of calls. -/
def llmPhase (env : LLMEnv) (_prompt : String) : String × Nat :=
  let p1 := if env.claudeAvailable then runClaudeLoop claudeModels env.claudeOutcomes
            else ("", 0)
  if p1.1 = "" ∧ env.openaiAvailable then
    let p2 := runOpenAILoop openaiModels env.openaiOutcomes
    (p2.1, p1.2 + p2.2)
  else p1

/-! ## Extractive fallback (synthesis_agent.py, lines 376-429) -/

/-- Leading sentence of the no-LLM fallback answer. -/
def extractiveIntro : String :=
  "I found relevant information in the available documents. Here\x27s what I can tell you:\n\n"

/-- Trailing note of the no-LLM fallback answer. -/
def extractNoteSuffix : String :=
  "\n\nNote: This is extracted directly from the documents. For a more complete answer, please ensure the LLM service is available."

/-- Body used when no clean sentence could be extracted from the best
chunk. -/
def extractUnclearBody : String :=
  "I found information in the documents, but it appears to be unclear or garbled. Please try rephrasing your question or check if the documents contain clear information about this topic."

/-- The sentence filter of the extractive fallback (length at least 15,
at most 20 percent single-letter tokens, ratio at least 0.6). -/
def keepMeaningful (s0 : String) : Option String :=
  let s := pyStrip s0
  if 15 ≤ s.length then
    let ws := pyWords s
    let singles := (ws.filter (fun w => w.length = 1 && (w.data.headD ' ').isAlpha)).length
    if 0 < ws.length ∧ 5 * singles ≤ ws.length then
      if readable60 s then some s else none
    else none
  else none

/-- The deterministic extractive fallback built from the single
highest-similarity chunk when no provider yielded output. -/
def extractiveFallback (retrieved : List (DocumentChunk × ℚ)) : String :=
  match retrieved with
  | [] => extractiveIntro ++ extractNoteSuffix
  | (best, _) :: _ =>
    let t1 := best.text.data.map (fun c => if allowedSymbol c then c else ' ')
    let t2 := fixMerged t1
    let t3 := collapseWs t2
    let t4 := collapseRuns asciiLetter (fun c => [c]) 3 t3
    let t5 := collapseRuns (fun c => !(pyIsWord c || pyIsSpace c)) (fun _ => [' ']) 3 t4
    let lines := (String.mk t5).splitOn "\n"
    let keptLines := lines.filterMap (fun ln =>
      if pyStrip ln ≠ "" ∧ 7 * ln.length ≤ 10 * alnumSpaceCount ln then some (pyStrip ln)
      else none)
    let ct := joinSp keptLines
    let meaningful := (splitSentences ct).filterMap keepMeaningful
    let body := if meaningful ≠ [] then joinSp (meaningful.take 5) else extractUnclearBody
    extractiveIntro ++ body ++ extractNoteSuffix

/-! ## Prompt assembly and the synthesis agent -/

/-- Python truthiness of an optional string (`None` and the empty
string are falsy). -/
def pyTruthyStr : Option String → Bool
  | none => false
  | some s => s != ""

/-- The compact provenance header `[doc, origin, method, Page N,
Section S]` prefixed to each chunk in the prompt context. -/
def sourceHeaderOf (ch : DocumentChunk) : String :=
  let s1 := "[" ++ ch.document_name
  let s2 := if pyTruthyStr ch.origin then s1 ++ ", " ++ ch.origin.getD "" else s1
  let s3 := if pyTruthyStr ch.method then s2 ++ ", " ++ ch.method.getD "" else s2
  let s4 := s3 ++ ", Page " ++ toString ch.page_number
  let s5 := if pyTruthyStr ch.section_number then s4 ++ ", Section " ++ ch.section_number.getD ""
            else s4
  s5 ++ "]"

/-- The joined context block of all retrieved chunks. -/
def contextOf (retrieved : List (DocumentChunk × ℚ)) : String :=
  joinBy ("\n\n---\n\n") (retrieved.map (fun p => sourceHeaderOf p.1 ++ "\n" ++ p.1.text))

/-- One entry of the table summary block. -/
def tableEntryText (i : Nat) (t : TableHit) : String :=
  "\nTable " ++ toString i ++ " from " ++ t.document ++ " (Page " ++ toString t.page ++ "):\n" ++
    (if t.table_data.headers ≠ [] then
      "Headers: " ++ joinBy (", ") t.table_data.headers ++ "\n" else "") ++
    (if t.table_data.rows ≠ [] then
      "Rows: " ++ toString t.table_data.rows.length ++ " data rows\n" else "")

/-- The table summary block of the prompt. -/
def tableContextOf (tables : List TableHit) : String :=
  if tables = [] then ""
  else "\n\n**Technical Tables Found:**\n" ++
    String.join (tables.enum.map (fun p => tableEntryText (p.1 + 1) p.2))

/-- The conflict summary block of the prompt. -/
def conflictContextOf (conflicts : List ConflictRecord) : String :=
  if conflicts = [] then ""
  else "\n\n**Potential Standard Conflicts Detected:**\n" ++
    String.join (conflicts.map (fun c =>
      "\n- " ++ c.standard ++ ": Multiple sources with different interpretations\n"))

/-- A conversation message (the two keys read from each history
dictionary). -/
structure ChatMessage where
  role : String
  content : String
deriving DecidableEq

/-- The recent-conversation block: contents of the user turns among the
last five messages. -/
def historyContextOf (hist : List ChatMessage) : String :=
  let recent := ((hist.drop (hist.length - 5)).filter (fun m => m.role == "user")).map
    (fun m => m.content)
  if recent = [] then ""
  else "\n\n**Recent Conversation Context:**\n" ++
    joinBy ("\n") (recent.map (fun q => "- " ++ q))

/-- The full synthesis prompt (the f-string of lines 235-296). -/
def synthesisPromptOf (question : String) (hist : List ChatMessage)
    (retrieved : List (DocumentChunk × ℚ)) (tables : List TableHit)
    (conflicts : List ConflictRecord) : String :=
  "You are a helpful AI Safety Assistant. Your role is to provide clear, easy-to-understand answers by synthesizing information from multiple safety documents.\n\n**User Question:** "
    ++ question ++ "\n" ++ historyContextOf hist
    ++ "\n\n**Relevant Information from Multiple Documents:**\n" ++ contextOf retrieved
    ++ "\n" ++ tableContextOf tables ++ "\n" ++ conflictContextOf conflicts
    ++ "\n\n**THE THREE R\x27s - CRITICAL REQUIREMENTS:**\n\n**1. RETRIEVAL (Did you find the right information?):**\n- Only use information that is CLEARLY present in the provided context above\n- Synthesize information from multiple sources when available\n- If the context doesn\x27t contain the answer, you MUST say so explicitly\n- Do NOT use information from your training data - only from the context provided\n- Verify that the context actually answers the question before responding\n\n**2. REASONING (Why did you give that answer?):**\n- Explain WHERE you found the information (e.g., \"The test procedures show...\" or \"Comparing the standards reveals...\")\n- If citing specific values from tables, explain what the table represents\n- If comparing standards, explain the differences clearly\n- Be clear about what part of the documents supports your answer\n- Use natural language, not technical citations\n\n**3. REFUSAL (Admit when data is missing):**\n- If the context doesn\x27t contain the answer, say so clearly\n- Example: \"I found information about UNECE R94 and Euro NCAP, but I don\x27t see details about [specific thing] in the available documents\"\n- NEVER make up numbers, values, or requirements\n- If information is incomplete or unclear, state this explicitly\n- It\x27s better to say \"I cannot find this information across the available documents\" than to guess\n\n**ADDITIONAL INSTRUCTIONS:**\n1. Synthesize information from all provided sources to give a comprehensive answer\n2. Skip any garbled or unclear text - only use clear, readable information\n3. Write in SIMPLE, CLEAR language that anyone can understand\n4. Be CONCISE and to the point - avoid unnecessary technical jargon\n5. DO NOT mention document names, page numbers, or file paths in your answer text\n6. If comparing standards, explain differences simply with reasoning\n7. If interpreting tables, explain key values in plain language with context\n\n**OUTPUT FORMAT:**\nProvide a simple, human-friendly answer that:\n- Synthesizes information from multiple sources if available\n- Explains where/how you found the information (reasoning)\n- Admits when information is missing (refusal)\n\n**Example Good Answer (with all 3 R\x27s):**\n\"The maximum allowable HIC value for a 50th percentile male dummy is 1000 according to UNECE R94. This is specified in the performance criteria section which defines injury thresholds. However, Euro NCAP uses a different threshold of 700 for their assessment. The difference comes from UNECE being a regulatory minimum while Euro NCAP sets higher performance targets for star ratings.\"\n\n**Example Good Refusal:**\n\"I found information about UNECE R94 and Euro NCAP protocols in the available documents, but I don\x27t see specific details about the IIHS 2025 protocol. The documents I have access to cover European regulations and protocols, but not the IIHS 2025 standard.\"\n\n**CRITICAL:**\n- If the context contains garbled or unreadable text, skip it completely\n- Only use clear, readable sentences\n- If you cannot form a coherent answer from the context, say so clearly\n- Do NOT repeat garbled text, repeated characters, or unreadable content\n- Format your answer in clean, readable sentences\n\n**Answer:**"

/-- The refusal returned for an empty retrieval result. -/
def emptyRetrievalRefusal (q : String) : String :=
  "I couldn\x27t find relevant information in the available safety documents for your question: \x27"
    ++ q ++
    "\x27. The documents I have access to don\x27t appear to contain this information. Please try rephrasing your question or check if the specific document you\x27re looking for is available in the library."

/-- The dictionary returned by `synthesis_agent`. -/
structure SynthesisOutput where
  synthesis : String
  tables : List TableHit
  comparisons : List StandardRecord
  conflicts : List ConflictRecord
  num_sources : Nat
deriving DecidableEq

/-- `synthesis_agent`: the whole pipeline, returning the output
dictionary together with the number of LLM provider calls made. -/
def synthesis_agent (question : String) (retrieved_chunks : List (DocumentChunk × ℚ))
    (conversation_history : List ChatMessage) (env : LLMEnv) : SynthesisOutput × Nat :=
  if retrieved_chunks = [] then
    ({ synthesis := emptyRetrievalRefusal question, tables := [], comparisons := [],
       conflicts := [], num_sources := 0 }, 0)
  else
    let all_chunks := retrieved_chunks.map Prod.fst
    let tables := all_chunks.filterMap (fun ch =>
      if detect_table ch.text then
        match extract_table_data ch.text with
        | some td =>
          if td.has_table then
            some { document := ch.document_name, page := ch.page_number,
                   «section» := ch.section_number, table_data := td,
                   context := pySlice500 ch.text }
          else none
        | none => none
      else none)
    let standards := extract_standard_info retrieved_chunks
    let conflicts := detect_conflicts standards
    let prompt := synthesisPromptOf question conversation_history retrieved_chunks tables conflicts
    let lp := llmPhase env prompt
    let raw := if lp.1 ≠ "" then lp.1 else extractiveFallback retrieved_chunks
    ({ synthesis := postProcess raw, tables := tables, comparisons := standards,
       conflicts := conflicts, num_sources := all_chunks.length }, lp.2)

/-! ## Claim-level auxiliary definitions -/

/-- Per-attempt verdict of the provider-fallback policy as the
specification words it: accept and stop, skip to the next model, or
abort the whole provider. -/
inductive AttemptAct where
  | accept (text : String)
  | skipModel
  | abortProvider
deriving DecidableEq

/-- Written from the claim wording (spec §4.4 step 5): success with
non-empty output accepts; a model-not-found error skips the model; an
authentication or rate-limit error aborts the provider; any other error
skips the model.  (Success with empty output, which the claim leaves
unstated, skips the model, as the acceptance condition requires
non-empty output.) -/
def claimedClassify (o : LLMOutcome) : AttemptAct :=
  match o with
  | LLMOutcome.success t =>
    if pyStrip t = "" then AttemptAct.skipModel else AttemptAct.accept (pyStrip t)
  | LLMOutcome.errNotFound => AttemptAct.skipModel
  | LLMOutcome.errAuth => AttemptAct.abortProvider
  | LLMOutcome.errRateLimit => AttemptAct.abortProvider
  | LLMOutcome.errOther => AttemptAct.skipModel

/-- The per-attempt policy the secondary loop actually implements: any
response stops the loop, a model-not-found error skips the model, and
every other error aborts the provider. -/
def secondaryClassify (o : LLMOutcome) : AttemptAct :=
  match o with
  | LLMOutcome.success t => AttemptAct.accept (pyStrip t)
  | LLMOutcome.errNotFound => AttemptAct.skipModel
  | _ => AttemptAct.abortProvider

/-- Generic driver of an ordered attempt list under a per-attempt
policy (the state-machine phrasing of the spec design notes), returning
the accepted text (empty when none) and the number of calls made. -/
def claimedDrive (classify : LLMOutcome → AttemptAct) :
    List String → List LLMOutcome → String × Nat
  | [], _ => ("", 0)
  | _ :: ms, outs =>
    match classify (outs.headD LLMOutcome.errOther) with
    | AttemptAct.accept t => (t, 1)
    | AttemptAct.abortProvider => ("", 1)
    | AttemptAct.skipModel =>
      let p := claimedDrive classify ms outs.tail
      (p.1, p.2 + 1)

/-- The overlap relation between the word buffers of two consecutive
chunks: the last `min n |a|` words of chunk `a` reappear as the head of
chunk `b`. -/
def OverlapRel (n : Nat) (a b : List String) : Prop :=
  b.take (min n a.length) = a.drop (a.length - min n a.length)

/-- Invariant of the chunking loop: the emitted buffers are pairwise
overlap-related, and the current buffer starts with the carried tail of
the last emitted buffer. -/
def LoopInv (n : Nat) (st : ChunkLoopState) : Prop :=
  List.Chain' (OverlapRel n) st.bufs ∧
    (∀ last ∈ st.bufs.getLast?, OverlapRel n last st.cur ∧ min n last.length ≤ st.cur.length)

/-- C4's claimed overlap property of one page, as stated: every pair of
consecutive chunks shares exactly `max(1, words*overlap/size)` words. -/
def c4ClaimAt (size overlap : Nat) (text : String) : Prop :=
  let ws := pyWords (cleanPageText text)
  let n := overlapWordsCount size overlap ws
  let bufs := chunkBufs size overlap ws
  ∀ i, i + 1 < bufs.length →
    n ≤ (bufs.getD i []).length ∧
      (bufs.getD (i + 1) []).take n = (bufs.getD i []).drop ((bufs.getD i []).length - n)

/-- A page of one 599-character word followed by eleven one-character
words: its first emitted chunk holds fewer words than the computed
overlap count. -/
def c4Page : String := String.mk (List.replicate 599 'a') ++ " b b b b b b b b b b b"

/-- A page of 150 copies of the unreadable word `()%`: its single
emitted full-size chunk fails the 0.6 readability ratio. -/
def garbledPage : String := joinBy (" ") (List.replicate 150 "()%")

/-- First group associated to a key in the ordered group dictionary
(the groups carry pairwise-distinct keys, so the first is the only
one). -/
def groupLookup (k : String) : List (String × List StandardRecord) → List StandardRecord
  | [] => []
  | e :: rest => if e.1 = k then e.2 else groupLookup k rest

/-- A Passive-Safety R94 record of UNECE origin. -/
def recUNECE : StandardRecord :=
  { document := "a", origin := some "UNECE", method := some "R94",
    domain := some "Passive Safety", strictness := some "Regulatory", year := none,
    text := "t", page := 1, «section» := none, similarity := 1 }

/-- A Passive-Safety R94 record of NHTSA origin. -/
def recNHTSA : StandardRecord :=
  { document := "b", origin := some "NHTSA", method := some "R94",
    domain := some "Passive Safety", strictness := some "Regulatory", year := none,
    text := "t", page := 2, «section» := none, similarity := 1 }

/-- A record with no domain and no method, of UNECE origin. -/
def recNull1 : StandardRecord :=
  { document := "x", origin := some "UNECE", method := none,
    domain := none, strictness := some "Regulatory", year := none,
    text := "t", page := 1, «section» := none, similarity := 0 }

/-- A record with no domain and no method, of NHTSA origin. -/
def recNull2 : StandardRecord :=
  { document := "y", origin := some "NHTSA", method := none,
    domain := none, strictness := some "Regulatory", year := none,
    text := "t", page := 2, «section» := none, similarity := 0 }

/-- A concrete high-similarity retrieved source. -/
def cexSource : CitedSource :=
  { document_name := "doc.pdf", page_number := some 1, section_number := none,
    similarity_score := (9 : ℚ)/10 }

/-- A plain chunk used in concrete runs of the synthesis agent. -/
def c8Chunk : DocumentChunk :=
  { text := "workplace rules apply here", document_name := "doc", page_number := 1 }

/-- An environment whose first provider call answers `ab cd ef`. -/
def c8Env : LLMEnv :=
  { claudeAvailable := true, claudeOutcomes := [LLMOutcome.success ("ab cd ef")],
    openaiAvailable := false, openaiOutcomes := [] }

/-! ## Theorems -/

/-- C1: for every question, conversation history and provider
environment, an empty retrieved-chunk list makes `synthesis_agent`
return the fixed refusal structure immediately: the refusal text, empty
tables, comparisons and conflicts, `num_sources = 0`, and zero LLM
provider invocations. -/
theorem c1_empty_retrieval_short_circuit (question : String)
    (hist : List ChatMessage) (env : LLMEnv) :
    synthesis_agent question [] hist env =
      ({ synthesis := emptyRetrievalRefusal question, tables := [], comparisons := [],
         conflicts := [], num_sources := 0 }, 0) := rfl

theorem runClaude_eq_claimedDrive (ms : List String) :
    ∀ outs, runClaudeLoop ms outs = claimedDrive claimedClassify ms outs := by
  induction ms with
  | nil => intro outs; rfl
  | cons m ms ih =>
    intro outs
    cases outs with
    | nil => simp [runClaudeLoop, claimedDrive, claimedClassify, ih]
    | cons o rest =>
      cases o with
      | success t =>
        by_cases hs : pyStrip t = "" <;>
          simp [runClaudeLoop, claimedDrive, claimedClassify, hs, ih]
      | errNotFound => simp [runClaudeLoop, claimedDrive, claimedClassify, ih]
      | errAuth => simp [runClaudeLoop, claimedDrive, claimedClassify]
      | errRateLimit => simp [runClaudeLoop, claimedDrive, claimedClassify]
      | errOther => simp [runClaudeLoop, claimedDrive, claimedClassify, ih]

theorem runOpenAI_eq_secondaryDrive (ms : List String) :
    ∀ outs, runOpenAILoop ms outs = claimedDrive secondaryClassify ms outs := by
  induction ms with
  | nil => intro outs; rfl
  | cons m ms ih =>
    intro outs
    cases outs with
    | nil => simp [runOpenAILoop, claimedDrive, secondaryClassify]
    | cons o rest =>
      cases o with
      | success t => simp [runOpenAILoop, claimedDrive, secondaryClassify]
      | errNotFound => simp [runOpenAILoop, claimedDrive, secondaryClassify, ih]
      | errAuth => simp [runOpenAILoop, claimedDrive, secondaryClassify]
      | errRateLimit => simp [runOpenAILoop, claimedDrive, secondaryClassify]
      | errOther => simp [runOpenAILoop, claimedDrive, secondaryClassify]

/-- C3, counterexample: the secondary (OpenAI) loop does not follow the
claimed per-attempt policy: on the outcome sequence [other error,
success "ok"] the claimed policy skips to the second model and accepts
"ok", while the implemented loop aborts the provider after the first
error. -/
theorem c3_counterexample :
    runOpenAILoop openaiModels [LLMOutcome.errOther, LLMOutcome.success ("ok")] ≠
      claimedDrive claimedClassify openaiModels
        [LLMOutcome.errOther, LLMOutcome.success ("ok")] := by decide

/-- C3, amended: the primary (Anthropic) loop follows exactly the
claimed per-attempt policy (accept non-empty success, skip on
not-found, abort on authentication or rate limit, skip on any other
error), but the secondary (OpenAI) loop follows a different policy: any
response stops the loop, not-found skips the model, and every other
error class aborts the provider. -/
theorem c3_amended :
    (∀ outs, runClaudeLoop claudeModels outs = claimedDrive claimedClassify claudeModels outs) ∧
    (∀ outs, runOpenAILoop openaiModels outs = claimedDrive secondaryClassify openaiModels outs) :=
  ⟨runClaude_eq_claimedDrive claudeModels, runOpenAI_eq_secondaryDrive openaiModels⟩

theorem keywordScore_zero (kws : List String) (ql : String)
    (h : ∀ kw ∈ kws, containsSub kw.data ql.data = false) : keywordScore kws ql = 0 := by
  unfold keywordScore
  have : kws.filter (fun kw => containsSub kw.data ql.data) = [] := by
    apply List.filter_eq_nil_iff.mpr
    intro kw hkw
    simp [h kw hkw]
  simp [this]

theorem keywordScore_pos (kws : List String) (ql : String) (kw : String)
    (hkw : kw ∈ kws) (hhit : containsSub kw.data ql.data = true) :
    0 < keywordScore kws ql := by
  unfold keywordScore
  have hmem : kw ∈ kws.filter (fun kw => containsSub kw.data ql.data) :=
    List.mem_filter.mpr ⟨hkw, hhit⟩
  exact List.length_pos.mpr (fun hnil => by simp [hnil] at hmem)

theorem scoresOver_eq_nil (q : String) :
    ∀ tbl : List (String × List String),
    (∀ e ∈ tbl, ∀ kw ∈ e.2, containsSub kw.data (pyLower q).data = false) →
    scoresOver tbl q = [] := by
  intro tbl
  induction tbl with
  | nil => intro _; rfl
  | cons e tl ih =>
    intro h
    have h0 : keywordScore e.2 (pyLower q) = 0 :=
      keywordScore_zero _ _ (h e (List.mem_cons_self e tl))
    have htl : scoresOver tl q = [] :=
      ih (fun f hf kw hkw => h f (List.mem_cons_of_mem e hf) kw hkw)
    simp only [scoresOver, List.filterMap_cons] at htl ⊢
    simp [h0, htl]

theorem scoresOver_single (q : String) :
    ∀ (tbl : List (String × List String)) (D : String) (kws : List String),
    (tbl.map Prod.fst).Nodup →
    (D, kws) ∈ tbl →
    (∃ kw ∈ kws, containsSub kw.data (pyLower q).data = true) →
    (∀ e ∈ tbl, e.1 ≠ D → ∀ kw ∈ e.2, containsSub kw.data (pyLower q).data = false) →
    scoresOver tbl q = [(D, keywordScore kws (pyLower q))] := by
  intro tbl
  induction tbl with
  | nil => intro D kws _ hmem; cases hmem
  | cons e tl ih =>
    intro D kws hnd hmem hhit hothers
    have hnd2 := hnd
    rw [List.map_cons, List.nodup_cons] at hnd2
    rcases List.mem_cons.mp hmem with heq | hmem2
    · subst heq
      obtain ⟨kw, hkw, hc⟩ := hhit
      have hpos : 0 < keywordScore kws (pyLower q) := keywordScore_pos _ _ kw hkw hc
      have htl : scoresOver tl q = [] := by
        apply scoresOver_eq_nil
        intro f hf kw2 hkw2
        refine hothers f (List.mem_cons_of_mem _ hf) ?_ kw2 hkw2
        intro hfd
        have hin : f.1 ∈ tl.map Prod.fst := List.mem_map_of_mem Prod.fst hf
        rw [hfd] at hin
        exact hnd2.1 hin
      simp only [scoresOver, List.filterMap_cons] at htl ⊢
      simp [hpos, htl]
    · have hne : e.1 ≠ D := by
        intro hfd
        have : D ∈ tl.map Prod.fst := List.mem_map_of_mem Prod.fst hmem2
        exact hnd2.1 (hfd ▸ this)
      have h0 : keywordScore e.2 (pyLower q) = 0 :=
        keywordScore_zero _ _ (hothers e (List.mem_cons_self e tl) hne)
      have htl := ih D kws hnd2.2 hmem2 hhit
        (fun f hf hfd kw hkw => hothers f (List.mem_cons_of_mem e hf) hfd kw hkw)
      simp only [scoresOver, List.filterMap_cons] at htl ⊢
      simp [h0, htl]

/-- C6: a question whose lowercased text contains some keyword of
domain `D` and no keyword of any other domain of the table gets `D` as
its primary domain, and a question containing no keyword of any domain
gets "General Safety". -/
theorem c6_primary_domain :
    (∀ (q D : String) (kws : List String),
      (D, kws) ∈ DOMAIN_KEYWORDS →
      (∃ kw ∈ kws, containsSub kw.data (pyLower q).data = true) →
      (∀ e ∈ DOMAIN_KEYWORDS, e.1 ≠ D → ∀ kw ∈ e.2,
        containsSub kw.data (pyLower q).data = false) →
      get_primary_domain q = D) ∧
    (∀ q : String,
      (∀ e ∈ DOMAIN_KEYWORDS, ∀ kw ∈ e.2, containsSub kw.data (pyLower q).data = false) →
      get_primary_domain q = "General Safety") := by
  constructor
  · intro q D kws hmem hhit hothers
    have hnd : (DOMAIN_KEYWORDS.map Prod.fst).Nodup := by decide
    have hs : domainScores q = [(D, keywordScore kws (pyLower q))] :=
      scoresOver_single q DOMAIN_KEYWORDS D kws hnd hmem hhit hothers
    simp [get_primary_domain, classify_domain, hs, sortScoresDesc, insertScoreDesc]
  · intro q h
    have hs : domainScores q = [] := scoresOver_eq_nil q DOMAIN_KEYWORDS h
    simp [get_primary_domain, classify_domain, hs, sortScoresDesc]

/-- Witness for C6 at concrete questions: "asil" hits only the
Functional Safety table, "hello" hits no table. -/
theorem c6_primary_domain_witness :
    get_primary_domain ("asil") = "Functional Safety" ∧
    get_primary_domain ("hello") = "General Safety" := by
  constructor
  · exact c6_primary_domain.1 "asil" "Functional Safety"
      ["functional safety", "iso 26262", "asil", "hara", "safety goal",
       "safety requirement", "safety concept", "safety lifecycle",
       "fusa", "safety integrity", "random failure", "systematic failure"]
      (by decide) ⟨"asil", by decide, by decide⟩ (by decide)
  · exact c6_primary_domain.2 "hello" (by decide)

theorem addToGroups_map_fst (k : String) (r : StandardRecord) :
    ∀ acc : List (String × List StandardRecord),
    (addToGroups acc k r).map Prod.fst =
      if k ∈ acc.map Prod.fst then acc.map Prod.fst else acc.map Prod.fst ++ [k] := by
  intro acc
  induction acc with
  | nil => simp [addToGroups]
  | cons e rest ih =>
    by_cases h : e.1 = k
    · simp [addToGroups, h, List.mem_cons]
    · by_cases h2 : k ∈ rest.map Prod.fst <;>
        simp [addToGroups, h, ih, h2, List.mem_cons, Ne.symm h]

theorem addToGroups_nodup (k : String) (r : StandardRecord)
    (acc : List (String × List StandardRecord))
    (h : (acc.map Prod.fst).Nodup) : ((addToGroups acc k r).map Prod.fst).Nodup := by
  rw [addToGroups_map_fst]
  by_cases h2 : k ∈ acc.map Prod.fst
  · simpa [h2]
  · simp [h2, List.nodup_append, h]

theorem foldl_addToGroups_nodup :
    ∀ (stds : List StandardRecord) (acc : List (String × List StandardRecord)),
    (acc.map Prod.fst).Nodup →
    (((stds.foldl (fun acc r => addToGroups acc (conflictKey r) r) acc)).map Prod.fst).Nodup := by
  intro stds
  induction stds with
  | nil => intro acc h; simpa
  | cons s tl ih => intro acc h; exact ih _ (addToGroups_nodup _ _ _ h)

theorem groupedOf_keys_nodup (stds : List StandardRecord) :
    ((groupedOf stds).map Prod.fst).Nodup :=
  foldl_addToGroups_nodup stds [] (by simp)

theorem groupLookup_addToGroups (k k2 : String) (r : StandardRecord) :
    ∀ acc : List (String × List StandardRecord),
    groupLookup k (addToGroups acc k2 r) =
      if k2 = k then groupLookup k acc ++ [r] else groupLookup k acc := by
  intro acc
  induction acc with
  | nil => by_cases h : k2 = k <;> simp [addToGroups, groupLookup, h]
  | cons e rest ih =>
    by_cases h1 : e.1 = k2
    · by_cases h2 : k2 = k
      · simp [addToGroups, groupLookup, h1, h2, h1.trans h2]
      · have hek : ¬ e.1 = k := fun he => h2 (h1 ▸ he)
        simp [addToGroups, groupLookup, h1, h2, hek]
    · by_cases h3 : e.1 = k
      · have hne : ¬ k2 = k := fun he => h1 (by rw [he, h3])
        have hne2 : ¬ k = k2 := fun he => hne he.symm
        simp [addToGroups, groupLookup, h1, h3, hne, hne2]
      · simp [addToGroups, groupLookup, h1, h3, ih]

theorem groupLookup_foldl (k : String) :
    ∀ (stds : List StandardRecord) (acc : List (String × List StandardRecord)),
    groupLookup k (stds.foldl (fun acc r => addToGroups acc (conflictKey r) r) acc) =
      groupLookup k acc ++ stds.filter (fun r => decide (conflictKey r = k)) := by
  intro stds
  induction stds with
  | nil => intro acc; simp
  | cons s tl ih =>
    intro acc
    simp only [List.foldl_cons]
    rw [ih, groupLookup_addToGroups]
    by_cases h : conflictKey s = k <;> simp [h, List.filter_cons]

theorem groupLookup_groupedOf (k : String) (stds : List StandardRecord) :
    groupLookup k (groupedOf stds) = stds.filter (fun r => decide (conflictKey r = k)) := by
  have h := groupLookup_foldl k stds []
  simpa [groupedOf, groupLookup] using h

theorem conflict_count_zero (k : String) :
    ∀ l : List (String × List StandardRecord), k ∉ l.map Prod.fst →
    ((l.filterMap (fun e =>
        if conflictCond e.2 then
          some ({ standard := e.1, sources := e.2,
                  conflict_type := "multiple_interpretations" } : ConflictRecord)
        else none)).filter (fun c => decide (c.standard = k))).length = 0 := by
  intro l
  induction l with
  | nil => intro _; rfl
  | cons e rest ih =>
    intro h
    have h1 : ¬ e.1 = k := fun he => h (by simp [he])
    have h2 : k ∉ rest.map Prod.fst := fun hm => h (by simp [hm])
    by_cases hc : conflictCond e.2 <;>
      simp [List.filterMap_cons, hc, List.filter_cons, h1, ih h2]

theorem conflict_count (k : String) :
    ∀ l : List (String × List StandardRecord), (l.map Prod.fst).Nodup →
    ((l.filterMap (fun e =>
        if conflictCond e.2 then
          some ({ standard := e.1, sources := e.2,
                  conflict_type := "multiple_interpretations" } : ConflictRecord)
        else none)).filter (fun c => decide (c.standard = k))).length =
      if conflictCond (groupLookup k l) then 1 else 0 := by
  intro l
  induction l with
  | nil => intro _; simp [groupLookup, conflictCond]
  | cons e rest ih =>
    intro hnd
    rw [List.map_cons, List.nodup_cons] at hnd
    by_cases h1 : e.1 = k
    · have hzero := conflict_count_zero k rest (h1 ▸ hnd.1)
      by_cases hc : conflictCond e.2 <;>
        simp [List.filterMap_cons, hc, List.filter_cons, h1, groupLookup, hzero]
    · by_cases hc : conflictCond e.2 <;>
        simp [List.filterMap_cons, hc, List.filter_cons, h1, groupLookup, ih hnd.2]

/-- C7: grouping by `domain + "_" + method`, every group with more than
one member and more than one distinct origin or strictness yields
exactly one conflict record for that key, always of type
"multiple_interpretations"; in particular two records sharing domain
and method but differing in origin yield exactly that one conflict. -/
theorem c7_one_conflict_per_key :
    (∀ (stds : List StandardRecord) (k : String),
      1 < (stds.filter (fun r => decide (conflictKey r = k))).length →
      (1 < pySetSize ((stds.filter (fun r => decide (conflictKey r = k))).map
            (fun r => r.origin)) ∨
       1 < pySetSize ((stds.filter (fun r => decide (conflictKey r = k))).map
            (fun r => r.strictness))) →
      ((detect_conflicts stds).filter (fun c => decide (c.standard = k))).length = 1 ∧
        ∀ c ∈ detect_conflicts stds, c.conflict_type = "multiple_interpretations") ∧
    (∀ r1 r2 : StandardRecord, r1.domain = r2.domain → r1.method = r2.method →
      r1.origin ≠ r2.origin →
      detect_conflicts [r1, r2] =
        [{ standard := conflictKey r1, sources := [r1, r2],
           conflict_type := "multiple_interpretations" }]) := by
  constructor
  · intro stds k hlen hdist
    constructor
    · have hcond : conflictCond (groupLookup k (groupedOf stds)) = true := by
        rw [groupLookup_groupedOf]
        simp only [conflictCond, Bool.and_eq_true, Bool.or_eq_true, decide_eq_true_eq]
        exact ⟨hlen, by rcases hdist with h | h
                        · exact Or.inl h
                        · exact Or.inr h⟩
      have := conflict_count k (groupedOf stds) (groupedOf_keys_nodup stds)
      rw [hcond] at this
      simpa [detect_conflicts] using this
    · intro c hc
      simp only [detect_conflicts, List.mem_filterMap] at hc
      obtain ⟨e, _, he⟩ := hc
      by_cases h : conflictCond e.2 <;> simp [h] at he
      exact he ▸ rfl
  · intro r1 r2 h1 h2 h3
    have hk : conflictKey r2 = conflictKey r1 := by
      simp [conflictKey, h1, h2]
    have hne : ¬ r2.origin = r1.origin := fun he => h3 he.symm
    have hcond : conflictCond [r1, r2] = true := by
      simp only [conflictCond, Bool.and_eq_true, Bool.or_eq_true, decide_eq_true_eq]
      exact ⟨by simp, Or.inl (by simp [pySetSize, hne])⟩
    simp [detect_conflicts, groupedOf, addToGroups, hk, hcond]

/-- Witness for C7: the two concrete Passive-Safety R94 records of
different origins produce exactly one conflict for their key. -/
theorem c7_one_conflict_per_key_witness :
    (1 < ([recUNECE, recNHTSA].filter
        (fun r => decide (conflictKey r = "Passive Safety_R94"))).length ∧
      ((detect_conflicts [recUNECE, recNHTSA]).filter
        (fun c => decide (c.standard = "Passive Safety_R94"))).length = 1) ∧
    detect_conflicts [recUNECE, recNHTSA] =
      [{ standard := conflictKey recUNECE, sources := [recUNECE, recNHTSA],
         conflict_type := "multiple_interpretations" }] := by
  constructor
  · exact ⟨by decide,
      (c7_one_conflict_per_key.1 [recUNECE, recNHTSA] "Passive Safety_R94"
        (by decide) (Or.inl (by decide))).1⟩
  · exact c7_one_conflict_per_key.2 recUNECE recNHTSA (by decide) (by decide) (by decide)

/-- C10: two records whose domain and method are both null fall into
the same "None_None" group, so a differing origin or strictness is
reported as exactly one conflict. -/
theorem c10_null_metadata_grouped (r1 r2 : StandardRecord)
    (hd1 : r1.domain = none) (hm1 : r1.method = none)
    (hd2 : r2.domain = none) (hm2 : r2.method = none)
    (hdiff : r1.origin ≠ r2.origin ∨ r1.strictness ≠ r2.strictness) :
    detect_conflicts [r1, r2] =
      [{ standard := "None_None", sources := [r1, r2],
         conflict_type := "multiple_interpretations" }] := by
  have hk1 : conflictKey r1 = "None_None" := by simp [conflictKey, hd1, hm1, pyShowOptStr]
  have hk2 : conflictKey r2 = "None_None" := by simp [conflictKey, hd2, hm2, pyShowOptStr]
  have hcond : conflictCond [r1, r2] = true := by
    simp only [conflictCond, Bool.and_eq_true, Bool.or_eq_true, decide_eq_true_eq]
    refine ⟨by simp, ?_⟩
    rcases hdiff with h | h
    · have hne : ¬ r2.origin = r1.origin := fun he => h he.symm
      exact Or.inl (by simp [pySetSize, hne])
    · have hne : ¬ r2.strictness = r1.strictness := fun he => h he.symm
      exact Or.inr (by simp [pySetSize, hne])
  simp [detect_conflicts, groupedOf, addToGroups, hk1, hk2, hcond]

/-- Witness for C10 at the two concrete null-metadata records. -/
theorem c10_null_metadata_grouped_witness :
    detect_conflicts [recNull1, recNull2] =
      [{ standard := "None_None", sources := [recNull1, recNull2],
         conflict_type := "multiple_interpretations" }] :=
  c10_null_metadata_grouped recNull1 recNull2 (by decide) (by decide) (by decide)
    (by decide) (Or.inl (by decide))

theorem insertSourceDesc_length (x : CitedSource) :
    ∀ l : List CitedSource, (insertSourceDesc x l).length = l.length + 1 := by
  intro l
  induction l with
  | nil => rfl
  | cons y ys ih =>
    by_cases h : y.similarity_score < x.similarity_score <;>
      simp [insertSourceDesc, h, ih]

theorem sortSourcesDesc_length_aux :
    ∀ (l : List CitedSource) (acc : List CitedSource),
    (l.foldl (fun acc x => insertSourceDesc x acc) acc).length = acc.length + l.length := by
  intro l
  induction l with
  | nil => intro acc; simp
  | cons x xs ih =>
    intro acc
    simp only [List.foldl_cons]
    rw [ih, insertSourceDesc_length, List.length_cons]
    omega

theorem sortSourcesDesc_length (l : List CitedSource) :
    (sortSourcesDesc l).length = l.length := by
  simpa [sortSourcesDesc] using sortSourcesDesc_length_aux l []

/-- C2, counterexample: with the empty answer string and a non-empty
source list, `extract_cited_sources` returns the empty list, so the
claim as stated (over every answer string) fails. -/
theorem c2_counterexample : extract_cited_sources ("") [cexSource] = [] := by
  simp [extract_cited_sources]

/-- C2, amended: for every non-empty answer string and non-empty source
list, `extract_cited_sources` returns a non-empty list (when no source
qualifies, the top three sources by similarity are the fallback). -/
theorem c2_nonempty_answer_nonempty_cited (answer : String) (sources : List CitedSource)
    (ha : answer ≠ "") (hs : sources ≠ []) :
    extract_cited_sources answer sources ≠ [] := by
  have hsort : (sortSourcesDesc sources).take 3 ≠ [] := by
    intro hnil
    rcases List.take_eq_nil_iff.mp hnil with h | h
    · exact absurd h (by norm_num)
    · have hlen := sortSourcesDesc_length sources
      rw [h] at hlen
      exact hs (List.length_eq_zero.mp hlen.symm)
  unfold extract_cited_sources
  rw [if_neg (by simp [ha, hs])]
  by_cases hc : (sources.foldl (citedStep (pyLower answer)) ([], [])).1 = []
  · simp [hc, hsort]
  · simp [hc]

/-- Witness for C2 at a concrete answer and source. -/
theorem c2_nonempty_answer_nonempty_cited_witness :
    ("hello" : String) ≠ "" ∧ ([cexSource] : List CitedSource) ≠ [] ∧
      extract_cited_sources ("hello") [cexSource] ≠ [] :=
  ⟨by decide, by simp,
    c2_nonempty_answer_nonempty_cited ("hello") [cexSource] (by decide) (by simp)⟩

/-- C8, counterexample: a model answer `ab cd ef` loses its only
sentence to the length-10 sentence filter, yet the agent does not
return the unclear-or-garbled refusal: the three-word-phrase fallback
returns `ab cd ef.` instead. -/
theorem c8_counterexample :
    ppKeptSentences (ppScrub ("ab cd ef")) = [] ∧
    (synthesis_agent ("what") [(c8Chunk, (1 : ℚ)/2)] [] c8Env).1.synthesis = "ab cd ef." ∧
    ("ab cd ef." : String) ≠ ppGarbledRefusal := by
  refine ⟨by decide, by decide, by decide⟩

/-- C8, amended: when no sentence survives the 60-percent readability
and 30-percent single-letter filters, the post-processing stage first
falls back to consecutive three-word phrases of at least 60 percent
alphanumeric density, and returns the fixed unclear-or-garbled refusal
sentence only when no such phrase survives either. -/
theorem c8_garbled_refusal_amended (s : String)
    (hsent : ppKeptSentences (ppScrub s) = []) :
    (ppPhrases (ppScrub s) = [] → postProcess s = ppGarbledRefusal) ∧
    (ppPhrases (ppScrub s) ≠ [] →
      postProcess s = ppFinalClean (joinBy (". ") ((ppPhrases (ppScrub s)).take 3) ++ ".")) := by
  constructor
  · intro hph
    have hfix : ppFinalClean ppGarbledRefusal = ppGarbledRefusal := by decide
    simp [postProcess, hsent, hph, hfix]
  · intro hph
    simp [postProcess, hsent, hph]

/-- Witness for C8 at the concrete answer `ab`: no sentence and no
phrase survive, and the refusal sentence is returned. -/
theorem c8_garbled_refusal_amended_witness :
    ppKeptSentences (ppScrub ("ab")) = [] ∧ ppPhrases (ppScrub ("ab")) = [] ∧
      postProcess ("ab") = ppGarbledRefusal :=
  ⟨by decide, by decide, (c8_garbled_refusal_amended ("ab") (by decide)).1 (by decide)⟩

/-- C5: the trailing buffered words are flushed as a final chunk
exactly when their joined text passes the 0.6
alphanumeric-or-whitespace readability ratio, while the loop-emitted
full-size chunks carry no readability gate: a concrete page of
unreadable symbol words still emits its full-size chunk. -/
theorem c5_final_chunk_readability_gate :
    (∀ (size overlap : Nat) (ws : List String),
      (readable60 (joinSp (chunkLoop size (overlapWordsCount size overlap ws) ws).cur) = true →
        (chunkLoop size (overlapWordsCount size overlap ws) ws).cur ≠ [] →
        chunkBufs size overlap ws =
          (chunkLoop size (overlapWordsCount size overlap ws) ws).bufs ++
            [(chunkLoop size (overlapWordsCount size overlap ws) ws).cur]) ∧
      (readable60 (joinSp (chunkLoop size (overlapWordsCount size overlap ws) ws).cur) = false →
        chunkBufs size overlap ws = (chunkLoop size (overlapWordsCount size overlap ws) ws).bufs)) ∧
    (∃ c ∈ chunk_text 600 100 garbledPage 1 ("d") {}, readable60 c.text = false) := by
  constructor
  · intro size overlap ws
    constructor
    · intro hr hc
      simp [chunkBufs, hr, hc]
    · intro hr
      simp [chunkBufs, hr]
  · decide

/-- Witness for C5 at a concrete short word list whose trailing buffer
is readable and therefore flushed. -/
theorem c5_final_chunk_readability_gate_witness :
    readable60 (joinSp (chunkLoop 10 (overlapWordsCount 10 3
        ["aaa", "bbb", "ccc", "ddd", "eee"]) ["aaa", "bbb", "ccc", "ddd", "eee"]).cur) = true ∧
    chunkBufs 10 3 ["aaa", "bbb", "ccc", "ddd", "eee"] =
      (chunkLoop 10 (overlapWordsCount 10 3 ["aaa", "bbb", "ccc", "ddd", "eee"])
        ["aaa", "bbb", "ccc", "ddd", "eee"]).bufs ++
        [(chunkLoop 10 (overlapWordsCount 10 3 ["aaa", "bbb", "ccc", "ddd", "eee"])
          ["aaa", "bbb", "ccc", "ddd", "eee"]).cur] :=
  ⟨by decide,
    (c5_final_chunk_readability_gate.1 10 3 ["aaa", "bbb", "ccc", "ddd", "eee"]).1
      (by decide) (by decide)⟩

theorem sumLen_append (a b : List String) : sumLen (a ++ b) = sumLen a + sumLen b := by
  simp [sumLen]

theorem sumLen_cons (w : String) (l : List String) :
    sumLen (w :: l) = w.length + 1 + sumLen l := by
  simp [sumLen, wordCost]

theorem sumLen_singleton (w : String) : sumLen [w] = w.length + 1 := by
  rw [sumLen_cons]; simp [sumLen]

theorem chunkLoop_no_emit :
    ∀ (ws : List String) (size ovCnt : Nat) (p : List String),
      sumLen p + sumLen ws < size →
      ws.foldl (chunkStep size ovCnt) { bufs := [], cur := p, curLen := sumLen p } =
        { bufs := [], cur := p ++ ws, curLen := sumLen (p ++ ws) } := by
  intro ws
  induction ws with
  | nil => intro size ovCnt p h; simp
  | cons w tl ih =>
    intro size ovCnt p h
    rw [sumLen_cons] at h
    have hlt : ¬ size ≤ sumLen p + w.length + 1 := by omega
    have hstep : chunkStep size ovCnt { bufs := [], cur := p, curLen := sumLen p } w =
        { bufs := [], cur := p ++ [w], curLen := sumLen (p ++ [w]) } := by
      simp only [chunkStep]
      rw [if_neg hlt]
      have : sumLen (p ++ [w]) = sumLen p + w.length + 1 := by
        rw [sumLen_append, sumLen_singleton]; omega
      simp [this]
    simp only [List.foldl_cons, hstep]
    have := ih size ovCnt (p ++ [w])
      (by rw [sumLen_append, sumLen_singleton]; omega)
    rw [this]
    simp

theorem space_not_lower (c : Char) (h : pyIsSpace c = true) : asciiLower c = false := by
  simp only [pyIsSpace, Bool.or_eq_true, decide_eq_true_eq] at h
  rcases h with ((((h | h) | h) | h) | h) | h <;> subst h <;> decide

theorem pyStrip_empty_all_space (s : String) (h : pyStrip s = "") :
    ∀ c ∈ s.data, pyIsSpace c = true := by
  unfold pyStrip at h
  have hl : ((s.data.dropWhile pyIsSpace).reverse.dropWhile pyIsSpace).reverse = [] := by
    simpa using congrArg String.data h
  rw [List.reverse_eq_nil_iff] at hl
  have h2 : ∀ c ∈ (s.data.dropWhile pyIsSpace).reverse, pyIsSpace c = true :=
    List.dropWhile_eq_nil_iff.mp hl
  have h3 : ∀ c ∈ s.data.dropWhile pyIsSpace, pyIsSpace c = true :=
    fun c hc => h2 c (List.mem_reverse.mpr hc)
  intro c hc
  rw [← List.takeWhile_append_dropWhile (p := pyIsSpace) (l := s.data)] at hc
  rcases List.mem_append.mp hc with h4 | h4
  · exact List.mem_takeWhile_imp h4
  · exact h3 c h4

theorem ctrlMap_all_space (l : List Char) (h : ∀ c ∈ l, pyIsSpace c = true) :
    ∀ c ∈ l.map (fun c => if isCtrlChar c then ' ' else c), pyIsSpace c = true := by
  intro c hc
  rcases List.mem_map.mp hc with ⟨d, hd, rfl⟩
  by_cases hctrl : isCtrlChar d = true
  · rw [if_pos hctrl]; decide
  · rw [if_neg hctrl]; exact h d hd

theorem fixMerged_id_of_no_lower :
    ∀ l : List Char, (∀ c ∈ l, asciiLower c = false) → fixMerged l = l := by
  intro l
  induction l with
  | nil => intro _; rfl
  | cons a tl ih =>
    intro h
    cases tl with
    | nil => rfl
    | cons b rest =>
      have ha : asciiLower a = false := h a (by simp)
      have htl : fixMerged (b :: rest) = b :: rest :=
        ih (fun c hc => h c (by simp [List.mem_cons] at hc ⊢; tauto))
      simp [fixMerged, ha, htl]

theorem collapseWs_all_space :
    ∀ l : List Char, (∀ c ∈ l, pyIsSpace c = true) →
    ∀ c ∈ collapseWs l, pyIsSpace c = true := by
  intro l
  induction l with
  | nil => intro _ c hc; cases hc
  | cons a tl ih =>
    intro h
    cases tl with
    | nil =>
      intro c hc
      have ha := h a (by simp)
      simp [collapseWs, ha] at hc
      rw [hc]; decide
    | cons b rest =>
      intro c hc
      have ha := h a (by simp)
      have hb := h b (by simp)
      have htl : ∀ c ∈ collapseWs (b :: rest), pyIsSpace c = true :=
        ih (fun d hd => h d (by simp [List.mem_cons] at hd ⊢; tauto))
      simp only [collapseWs, ha, hb, Bool.and_self, if_true, if_pos] at hc
      exact htl c hc

theorem collapseRunsFuel_mem (bad : Char → Bool) (repl : Char → List Char) (minRun : Nat) :
    ∀ (fuel : Nat) (l : List Char) (c : Char),
      c ∈ collapseRunsFuel bad repl minRun fuel l → c ∈ l ∨ ∃ d ∈ l, c ∈ repl d := by
  intro fuel
  induction fuel with
  | zero =>
    intro l c hc
    simp only [collapseRunsFuel] at hc
    exact Or.inl hc
  | succ n ih =>
    intro l c hc
    cases l with
    | nil => cases hc
    | cons a rest =>
      by_cases hcond :
          (bad a && decide (minRun ≤ (rest.takeWhile (fun d => d = a)).length + 1)) = true
      · rw [collapseRunsFuel, if_pos hcond] at hc
        rcases List.mem_append.mp hc with hr | hr
        · exact Or.inr ⟨a, by simp, hr⟩
        · rcases ih _ c hr with hm | ⟨d, hd, hrep⟩
          · exact Or.inl (List.mem_cons_of_mem a ((List.dropWhile_sublist _).subset hm))
          · exact Or.inr ⟨d, List.mem_cons_of_mem a ((List.dropWhile_sublist _).subset hd), hrep⟩
      · rw [collapseRunsFuel, if_neg hcond] at hc
        rcases List.mem_cons.mp hc with rfl | hr
        · exact Or.inl (by simp)
        · rcases ih _ c hr with hm | ⟨d, hd, hrep⟩
          · exact Or.inl (List.mem_cons_of_mem a hm)
          · exact Or.inr ⟨d, List.mem_cons_of_mem a hd, hrep⟩

theorem collapseRuns_space_all_space (bad : Char → Bool) (minRun : Nat)
    (l : List Char) (h : ∀ c ∈ l, pyIsSpace c = true) :
    ∀ c ∈ collapseRuns bad (fun _ => [' ']) minRun l, pyIsSpace c = true := by
  intro c hc
  rcases collapseRunsFuel_mem bad (fun _ => [' ']) minRun l.length l c hc with hm | ⟨d, _, hrep⟩
  · exact h c hm
  · simp at hrep
    simp [hrep, pyIsSpace]

theorem splitWsFuel_all_space :
    ∀ (fuel : Nat) (l : List Char), (∀ c ∈ l, pyIsSpace c = true) →
    splitWsFuel fuel l = [] := by
  intro fuel
  induction fuel with
  | zero => intro l _; simp [splitWsFuel]
  | succ n ih =>
    intro l h
    cases l with
    | nil => simp [splitWsFuel]
    | cons c rest =>
      have hc := h c (by simp)
      simp [splitWsFuel, hc, ih rest (fun d hd => h d (by simp [hd]))]

theorem pyWords_clean_empty (text : String) (h : pyStrip text = "") :
    pyWords (cleanPageText text) = [] := by
  have h0 := pyStrip_empty_all_space text h
  have h1 := ctrlMap_all_space text.data h0
  have h2 : fixMerged (text.data.map (fun c => if isCtrlChar c then ' ' else c)) =
      text.data.map (fun c => if isCtrlChar c then ' ' else c) :=
    fixMerged_id_of_no_lower _ (fun c hc => space_not_lower c (h1 c hc))
  have h3 := collapseWs_all_space _ h1
  have h4 := collapseRuns_space_all_space (fun c => !allowedSymbol c) 3 _ h3
  unfold pyWords cleanPageText
  simp only [h2]
  exact congrArg (List.map String.mk) (splitWsFuel_all_space _ _ h4)

theorem splitWsFuel_words_ne_nil :
    ∀ (fuel : Nat) (l : List Char) (w : List Char), w ∈ splitWsFuel fuel l → w ≠ [] := by
  intro fuel
  induction fuel with
  | zero => intro l w hw; simp [splitWsFuel] at hw
  | succ n ih =>
    intro l w hw
    cases l with
    | nil => simp [splitWsFuel] at hw
    | cons c rest =>
      by_cases hsp : pyIsSpace c = true
      · rw [splitWsFuel, if_pos hsp] at hw
        exact ih rest w hw
      · rw [splitWsFuel, if_neg hsp] at hw
        rcases List.mem_cons.mp hw with rfl | hw2
        · simp [List.takeWhile_cons, hsp]
        · exact ih _ w hw2

theorem pyWords_ne_empty (s : String) : ∀ w ∈ pyWords s, w ≠ "" := by
  intro w hw
  unfold pyWords at hw
  rcases List.mem_map.mp hw with ⟨wl, hwl, rfl⟩
  have hne := splitWsFuel_words_ne_nil _ _ _ hwl
  intro hcon
  exact hne (by simpa using congrArg String.data hcon)

theorem joinSp_ne_empty (b : List String) (hb : b ≠ []) (hw : ∀ w ∈ b, w ≠ "") :
    joinSp b ≠ "" := by
  cases b with
  | nil => exact absurd rfl hb
  | cons w tl =>
    cases tl with
    | nil => simpa [joinSp] using hw w (by simp)
    | cons v rest =>
      intro hcon
      have hd := congrArg String.data hcon
      simp only [joinSp] at hd
      simp [String.data_append] at hd

theorem chunkStep_words (size ovCnt : Nat) (st : ChunkLoopState) (w : String)
    (hw : w ≠ "")
    (hbufs : ∀ b ∈ st.bufs, b ≠ [] ∧ ∀ v ∈ b, v ≠ "")
    (hcur : ∀ v ∈ st.cur, v ≠ "") :
    (∀ b ∈ (chunkStep size ovCnt st w).bufs, b ≠ [] ∧ ∀ v ∈ b, v ≠ "") ∧
      (∀ v ∈ (chunkStep size ovCnt st w).cur, v ≠ "") := by
  have hcur2 : ∀ v ∈ st.cur ++ [w], v ≠ "" := by
    intro v hv
    rcases List.mem_append.mp hv with h | h
    · exact hcur v h
    · simp at h; subst h; exact hw
  have hcur2ne : st.cur ++ [w] ≠ [] := by simp
  simp only [chunkStep]
  by_cases hemit : size ≤ st.curLen + w.length + 1
  · rw [if_pos hemit]
    constructor
    · intro b hb
      rcases List.mem_append.mp hb with h | h
      · exact hbufs b h
      · simp at h; subst h; exact ⟨hcur2ne, hcur2⟩
    · intro v hv
      by_cases hov : ovCnt < (st.cur ++ [w]).length
      · rw [if_pos hov] at hv
        exact hcur2 v (List.drop_subset _ _ hv)
      · rw [if_neg hov] at hv
        exact hcur2 v hv
  · rw [if_neg hemit]
    exact ⟨hbufs, hcur2⟩

theorem chunkLoop_words :
    ∀ (ws : List String) (size ovCnt : Nat) (st : ChunkLoopState),
      (∀ w ∈ ws, w ≠ "") →
      (∀ b ∈ st.bufs, b ≠ [] ∧ ∀ v ∈ b, v ≠ "") →
      (∀ v ∈ st.cur, v ≠ "") →
      (∀ b ∈ (ws.foldl (chunkStep size ovCnt) st).bufs, b ≠ [] ∧ ∀ v ∈ b, v ≠ "") ∧
        (∀ v ∈ (ws.foldl (chunkStep size ovCnt) st).cur, v ≠ "") := by
  intro ws
  induction ws with
  | nil => intro size ovCnt st _ hbufs hcur; exact ⟨hbufs, hcur⟩
  | cons w tl ih =>
    intro size ovCnt st hws hbufs hcur
    simp only [List.foldl_cons]
    have hstep := chunkStep_words size ovCnt st w (hws w (by simp)) hbufs hcur
    exact ih size ovCnt _ (fun v hv => hws v (by simp [hv])) hstep.1 hstep.2

theorem chunkBufs_words (size overlap : Nat) (ws : List String)
    (hws : ∀ w ∈ ws, w ≠ "") :
    ∀ b ∈ chunkBufs size overlap ws, b ≠ [] ∧ ∀ v ∈ b, v ≠ "" := by
  intro b hb
  have hloop := chunkLoop_words ws size (overlapWordsCount size overlap ws)
    { bufs := [], cur := [], curLen := 0 } hws (by simp) (by simp)
  simp only [chunkBufs, chunkLoop] at hb
  rcases List.mem_append.mp hb with h | h
  · exact hloop.1 b h
  · split at h
    · rename_i hcond
      simp at h
      subst h
      exact ⟨hcond.1, hloop.2⟩
    · cases h

/-- C9: a non-empty page whose cleaned word sequence never accumulates
to the chunk-size threshold yields exactly one chunk when the joined
cleaned text passes the 0.6 readability ratio and no chunk at all
otherwise; and no emitted chunk of any page ever has empty text. -/
theorem c9_under_threshold_single_chunk :
    (∀ (size overlap : Nat) (text : String) (page : Nat) (doc : String) (md : PathMetadata),
      sumLen (pyWords (cleanPageText text)) < size →
      chunk_text size overlap text page doc md =
        (if readable60 (joinSp (pyWords (cleanPageText text))) = true then
          [mkChunkFrom doc page md 0 (joinSp (pyWords (cleanPageText text)))]
        else [])) ∧
    (∀ (size overlap : Nat) (text : String) (page : Nat) (doc : String) (md : PathMetadata)
      (c : DocumentChunk), c ∈ chunk_text size overlap text page doc md → c.text ≠ "") := by
  constructor
  · intro size overlap text page doc md hsum
    by_cases hstrip : pyStrip text = ""
    · have hws := pyWords_clean_empty text hstrip
      rw [chunk_text, if_pos hstrip, hws]
      simp [joinSp, readable60]
    · rw [chunk_text, if_neg hstrip]
      have hloop := chunkLoop_no_emit (pyWords (cleanPageText text)) size
        (overlapWordsCount size overlap (pyWords (cleanPageText text))) []
        (by simpa [sumLen] using hsum)
      rw [show sumLen ([] : List String) = 0 from rfl, List.nil_append] at hloop
      simp only [chunkBufs, chunkLoop, hloop]
      by_cases hr : readable60 (joinSp (pyWords (cleanPageText text))) = true
      · have hne : pyWords (cleanPageText text) ≠ [] := by
          intro hnil
          rw [hnil] at hr
          simp [joinSp, readable60] at hr
        simp [hr, hne, List.enum, List.enumFrom]
      · simp [hr]
  · intro size overlap text page doc md c hc
    rw [chunk_text] at hc
    by_cases hstrip : pyStrip text = ""
    · rw [if_pos hstrip] at hc; cases hc
    · rw [if_neg hstrip] at hc
      rcases List.mem_map.mp hc with ⟨p, hp, rfl⟩
      have hpmem : p.2 ∈ chunkBufs size overlap (pyWords (cleanPageText text)) := by
        rw [List.enum_eq_zip_range] at hp
        exact (List.of_mem_zip hp).2
      have hb := chunkBufs_words size overlap _ (pyWords_ne_empty _) p.2 hpmem
      exact joinSp_ne_empty p.2 hb.1 hb.2

/-- Witness for C9 at a concrete short page: under the default chunk
size the page "hello world" yields exactly one chunk with non-empty
text. -/
theorem c9_under_threshold_single_chunk_witness :
    sumLen (pyWords (cleanPageText ("hello world"))) < 600 ∧
    chunk_text 600 100 ("hello world") 1 ("d") {} =
      [mkChunkFrom ("d") 1 {} 0 (joinSp (pyWords (cleanPageText ("hello world"))))] ∧
    (mkChunkFrom ("d") 1 {} 0 (joinSp (pyWords (cleanPageText ("hello world"))))).text ≠ "" := by
  refine ⟨by decide, ?_, ?_⟩
  · have h := c9_under_threshold_single_chunk.1 600 100 ("hello world") 1 ("d") {} (by decide)
    rw [h, if_pos (by decide)]
  · apply c9_under_threshold_single_chunk.2 600 100 ("hello world") 1 ("d") {}
    have h := c9_under_threshold_single_chunk.1 600 100 ("hello world") 1 ("d") {} (by decide)
    rw [h, if_pos (by decide)]
    simp

theorem overlapRel_extend (n : Nat) (a cur : List String) (w : String)
    (h1 : OverlapRel n a cur) (h2 : min n a.length ≤ cur.length) :
    OverlapRel n a (cur ++ [w]) ∧ min n a.length ≤ (cur ++ [w]).length := by
  constructor
  · unfold OverlapRel at h1 ⊢
    rw [List.take_append_of_le_length h2]
    exact h1
  · simp only [List.length_append, List.length_cons, List.length_nil]
    omega

theorem chunkStep_inv (size n : Nat) (st : ChunkLoopState) (w : String)
    (h : LoopInv n st) : LoopInv n (chunkStep size n st w) := by
  obtain ⟨hchain, hcarry⟩ := h
  have hext : ∀ last ∈ st.bufs.getLast?,
      OverlapRel n last (st.cur ++ [w]) ∧ min n last.length ≤ (st.cur ++ [w]).length :=
    fun last hl => overlapRel_extend n last st.cur w (hcarry last hl).1 (hcarry last hl).2
  simp only [chunkStep]
  by_cases hemit : size ≤ st.curLen + w.length + 1
  · rw [if_pos hemit]
    constructor
    · rw [List.chain'_append]
      refine ⟨hchain, List.chain'_singleton _, ?_⟩
      intro x hx y hy
      simp at hy
      subst hy
      exact (hext x hx).1
    · intro last hl
      rw [List.getLast?_concat] at hl
      simp at hl
      subst hl
      by_cases hov : n < (st.cur ++ [w]).length
      · rw [if_pos hov]
        have hlen : ((st.cur ++ [w]).drop ((st.cur ++ [w]).length - n)).length = n := by
          rw [List.length_drop]; omega
        have hmin : min n (st.cur ++ [w]).length = n := Nat.min_eq_left (Nat.le_of_lt hov)
        constructor
        · unfold OverlapRel
          rw [hmin, List.take_of_length_le (le_of_eq hlen)]
        · rw [hmin, hlen]
      · rw [if_neg hov]
        have hmin : min n (st.cur ++ [w]).length = (st.cur ++ [w]).length :=
          Nat.min_eq_right (Nat.le_of_not_lt hov)
        constructor
        · unfold OverlapRel
          rw [hmin, List.take_length, Nat.sub_self, List.drop_zero]
        · rw [hmin]
  · rw [if_neg hemit]
    exact ⟨hchain, hext⟩

theorem chunkLoop_inv (size n : Nat) :
    ∀ (ws : List String) (st : ChunkLoopState), LoopInv n st →
      LoopInv n (ws.foldl (chunkStep size n) st) := by
  intro ws
  induction ws with
  | nil => intro st h; exact h
  | cons w tl ih =>
    intro st h
    simp only [List.foldl_cons]
    exact ih _ (chunkStep_inv size n st w h)

theorem chain_chunkBufs (size overlap : Nat) (ws : List String) :
    List.Chain' (OverlapRel (overlapWordsCount size overlap ws))
      (chunkBufs size overlap ws) := by
  have hinv : LoopInv (overlapWordsCount size overlap ws)
      (chunkLoop size (overlapWordsCount size overlap ws) ws) :=
    chunkLoop_inv size (overlapWordsCount size overlap ws) ws
      { bufs := [], cur := [], curLen := 0 } ⟨List.chain'_nil, by simp⟩
  simp only [chunkBufs]
  by_cases hcond : (chunkLoop size (overlapWordsCount size overlap ws) ws).cur ≠ [] ∧
      readable60 (joinSp (chunkLoop size (overlapWordsCount size overlap ws) ws).cur) = true
  · rw [if_pos hcond, List.chain'_append]
    refine ⟨hinv.1, List.chain'_singleton _, ?_⟩
    intro x hx y hy
    simp at hy
    subst hy
    exact (hinv.2 x hx).1
  · rw [if_neg hcond]
    simpa using hinv.1

/-- C4, counterexample: on the concrete page of one 599-character word
followed by eleven short words, the claimed overlap property fails:
the computed overlap word count is 2, but the first emitted chunk holds
a single word, so the claimed 2-word overlap with the next chunk cannot
exist. -/
theorem c4_counterexample : ¬ c4ClaimAt 600 100 c4Page := by
  intro h
  have h0 := h 0 (by decide)
  revert h0
  decide

/-- C4, amended: for every page, writing each chunk's text as the
space-join of its word buffer, every two consecutive chunks (including
the final flushed chunk) share exactly `min(overlapCount, |chunk i|)`
words, where `overlapCount = max(1, totalWordCount * overlapChars /
chunkSizeChars)` is computed once from the page's full word count: the
head of chunk `i+1` is the tail of chunk `i` of that length. -/
theorem c4_overlap_amended (size overlap : Nat) (text : String) (page : Nat)
    (doc : String) (md : PathMetadata) :
    List.Chain' (OverlapRel (overlapWordsCount size overlap (pyWords (cleanPageText text))))
      (chunkBufs size overlap (pyWords (cleanPageText text))) ∧
    (pyStrip text ≠ "" →
      (chunk_text size overlap text page doc md).map DocumentChunk.text =
        (chunkBufs size overlap (pyWords (cleanPageText text))).map joinSp) := by
  constructor
  · exact chain_chunkBufs size overlap (pyWords (cleanPageText text))
  · intro hstrip
    rw [chunk_text, if_neg hstrip]
    rw [List.map_map]
    have h1 : (DocumentChunk.text ∘ fun p : Nat × List String =>
        mkChunkFrom doc page md p.1 (joinSp p.2)) = joinSp ∘ Prod.snd := rfl
    rw [h1, ← List.map_map, List.enum_map_snd]

/-- Witness for C4 at the concrete counterexample page: the overlap
chain holds and the chunk texts are the joins of the word buffers. -/
theorem c4_overlap_amended_witness :
    pyStrip c4Page ≠ "" ∧
    List.Chain' (OverlapRel (overlapWordsCount 600 100 (pyWords (cleanPageText c4Page))))
      (chunkBufs 600 100 (pyWords (cleanPageText c4Page))) ∧
    (chunk_text 600 100 c4Page 1 ("d") {}).map DocumentChunk.text =
      (chunkBufs 600 100 (pyWords (cleanPageText c4Page))).map joinSp :=
  ⟨by decide, (c4_overlap_amended 600 100 c4Page 1 ("d") {}).1,
    (c4_overlap_amended 600 100 c4Page 1 ("d") {}).2 (by decide)⟩

end SafetyAssistant
